import Mathlib

/-!
Verification of the `unsatIO` data-loading pipeline (`src/unsat/data.py`).

The development shallowly embeds the Python code: machine integers are `Int`
(Python ints are unbounded, and Python's `divmod` uses floored division, i.e.
`Int.fdiv`/`Int.fmod`), fallible operations return `Except PyErr`, and the
numpy/torch arrays are modelled as a shape together with a total valuation
function.  Randomness (`np.random.randint`) and the seeded shuffle used by
`torch.utils.data.random_split` are modelled by passing the drawn entropy in
explicitly; the support and failure conditions of `np.random.randint(low,
high)` (uniform on `[low, high)`, `ValueError` when `high <= low`) follow the
numpy documentation since numpy is an external dependency of the repository.
-/

/-- The Python exception kinds that the embedded code can raise. -/
inductive PyErr where
  | zeroDivision
  | indexError
  | keyError
  | valueError
  | osError
deriving DecidableEq

deriving instance DecidableEq for Except

/-- Python's `divmod` on integers: floored quotient and remainder,
`ZeroDivisionError` on a zero divisor. -/
def pyDivMod (a b : Int) : Except PyErr (Int × Int) :=
  if b = 0 then .error .zeroDivision else .ok (a.fdiv b, a.fmod b)

/-- Python sequence indexing `l[i]`: non-negative indices are positional,
negative indices in `[-len(l), 0)` wrap from the end, anything else raises
`IndexError`. -/
def pyListGet (l : List α) (i : Int) : Except PyErr α :=
  if h : 0 ≤ i ∧ i < l.length then
    .ok (l.get ⟨i.toNat, by omega⟩)
  else if h' : -(l.length : Int) ≤ i ∧ i < 0 then
    .ok (l.get ⟨(i + l.length).toNat, by omega⟩)
  else
    .error .indexError

/-- Python truthiness of an optional tuple: `None` and the empty tuple are
falsy (`if not self.patch_size:` in `compute_border_mask`). -/
def pyFalsy : Option (List Int) → Bool
  | none => true
  | some l => l.isEmpty

/-- Python `int(x)` applied to the (exactly represented) fraction `x`:
truncation toward zero. -/
def pyInt (q : ℚ) : Int := q.num.tdiv q.den

/-- Round a rational to the nearest integer, ties to even (the IEEE-754
default rounding direction, at integer granularity). -/
def roundNearestEven (q : ℚ) : Int :=
  if q - ⌊q⌋ < 1 / 2 then ⌊q⌋
  else if 1 / 2 < q - ⌊q⌋ then ⌊q⌋ + 1
  else if ⌊q⌋ % 2 = 0 then ⌊q⌋ else ⌊q⌋ + 1

/-- Modelled from the IEEE-754 standard and the CPython documentation
(CPython floats are IEEE binary64, external to this repository): round a
rational to the nearest binary64 value — 53 significant bits, ties to even.
Covers the normal range (no overflow or subnormal handling), which contains
every value the claims touch. -/
def flRound (q : ℚ) : ℚ :=
  if q = 0 then 0
  else ((roundNearestEven (q * 2 ^ ((52 : Int) - Int.log 2 |q|)) : Int) : ℚ) *
    2 ^ (Int.log 2 |q| - 52)

/-- Python int-to-float conversion (exact for magnitudes below `2 ^ 53`). -/
def pyFloatOfInt (n : Int) : ℚ := flRound (n : ℚ)

/-- Python float multiplication: the exact product of the two operand values,
rounded to binary64. -/
def pyFloatMul (x y : ℚ) : ℚ := flRound (x * y)

/-- Modelled from the numpy documentation (numpy is an external dependency):
`np.random.randint(low, high)` draws uniformly from the half-open range
`[low, high)` and raises `ValueError` when `high <= low`.  The entropy of the
draw is passed in as `r`; every value of the support is realised by some `r`
and no other value is. -/
def np_randint (lo hi r : Int) : Except PyErr Int :=
  if hi ≤ lo then .error .valueError else .ok (lo + r % (hi - lo))

/-- A numpy/h5py/torch array: a shape and a total valuation on index
vectors.  Only integer payloads appear in the claims, so the float cast in
`__getitem__` is the identity on the payload. -/
structure Tensor (α : Type) where
  shape : List Int
  val : List Int → α

/-- `torch.full(shape, x)` / `np.full`: constant array of the given shape. -/
def Tensor.full (shape : List Int) (x : α) : Tensor α := ⟨shape, fun _ => x⟩

/-- Indexing the leading axis, `a[i]`, with numpy semantics: negative indices
wrap, out-of-bounds raises `IndexError`, and indexing a 0-d array raises. -/
def Tensor.index0 (t : Tensor α) (i : Int) : Except PyErr (Tensor α) :=
  match t.shape with
  | [] => .error .indexError
  | s :: rest =>
    if -s ≤ i ∧ i < s then
      .ok ⟨rest, fun ix => t.val ((if i < 0 then i + s else i) :: ix)⟩
    else .error .indexError

/-- Normalisation of one slice bound against an axis of extent `n`
(Python slice semantics: negative bounds wrap, then clamp to `[0, n]`). -/
def pySliceNorm (x n : Int) : Int := if x < 0 then max 0 (n + x) else min x n

/-- Per-axis (offset, new length) data of a basic slice. -/
def npSliceAux : List (Int × Int) → List Int → List (Int × Int)
  | [], _ => []
  | _ :: _, [] => []
  | (a, b) :: srest, n :: shrest =>
    let lo := pySliceNorm a n
    let hi := pySliceNorm b n
    (lo, max 0 (hi - lo)) :: npSliceAux srest shrest

/-- Shift a sliced index vector back into the coordinates of the original
array using the per-axis offsets. -/
def addOffsets : List (Int × Int) → List Int → List Int
  | [], ix => ix
  | _, [] => []
  | (off, _) :: os, i :: is => (off + i) :: addOffsets os is

/-- Basic slicing `a[s₀:e₀, s₁:e₁, ...]` on the leading axes: never raises on
bounds (slices clamp) but raises `IndexError` when there are more slices than
axes. -/
def Tensor.npSlice (t : Tensor α) (slices : List (Int × Int)) :
    Except PyErr (Tensor α) :=
  if slices.length ≤ t.shape.length then
    let ons := npSliceAux slices t.shape
    .ok ⟨(ons.map (·.2)) ++ t.shape.drop slices.length,
         fun ix => t.val (addOffsets ons ix)⟩
  else .error .indexError

/-- Whether an index vector lies inside every one of the given (normalised
against the shape) slice ranges; trailing axes without a slice are
unconstrained. -/
def inSlices : List (Int × Int) → List Int → List Int → Bool
  | [], _, _ => true
  | (a, b) :: srest, n :: shrest, i :: irest =>
    decide (pySliceNorm a n ≤ i) && decide (i < pySliceNorm b n)
      && inSlices srest shrest irest
  | _ :: _, _, _ => false

/-- Slice assignment `t[slices] = x` (as used for `mask[slices] = True`). -/
def Tensor.setSlice (t : Tensor α) (slices : List (Int × Int)) (x : α) :
    Tensor α :=
  ⟨t.shape, fun ix => if inSlices slices t.shape ix then x else t.val ix⟩

/-- `t.unsqueeze(0)`: add a leading channel axis. -/
def Tensor.unsqueeze0 (t : Tensor α) : Tensor α :=
  ⟨1 :: t.shape, fun ix => t.val ix.tail⟩

/-- `DataSelection` (src/unsat/data.py lines 15-53): which subset of the data
to use. -/
structure DataSelection where
  sample_list : List String
  height_range : Int × Int
  day_range : Int × Int
  dimension : Int
deriving DecidableEq

/-- `DataSelection.num_samples`. -/
def DataSelection.num_samples (sel : DataSelection) : Int :=
  sel.sample_list.length

/-- `DataSelection.num_heights`. -/
def DataSelection.num_heights (sel : DataSelection) : Int :=
  sel.height_range.2 - sel.height_range.1

/-- `DataSelection.num_days`. -/
def DataSelection.num_days (sel : DataSelection) : Int :=
  sel.day_range.2 - sel.day_range.1

/-- `DataSelection.points_per_sample`. -/
def DataSelection.points_per_sample (sel : DataSelection) : Int :=
  if sel.dimension = 2 then sel.num_heights * sel.num_days else sel.num_days

/-- `DataSelection.num_points`. -/
def DataSelection.num_points (sel : DataSelection) : Int :=
  sel.num_samples * sel.points_per_sample

/-- One sample group of the HDF5 file: the `data` and `labels` arrays. -/
structure H5Sample where
  data : Tensor Int
  labels : Tensor Int

/-- The backing HDF5 file: the leaf-group paths (in visit order, as
enumerated by `get_all_group_paths`) and the arrays of each sample; `none`
models a `KeyError` on lookup. -/
structure H5File where
  sampleNames : List String
  samples : String → Option H5Sample

/-- `file[name]`: look a sample group up in the file, `KeyError` when it is
absent. -/
def h5Get (f : H5File) (name : String) : Except PyErr H5Sample :=
  match f.samples name with
  | some smp => .ok smp
  | none => .error .keyError

/-- The state of an `XRayDataset` instance (its attributes after
`__init__`). -/
structure XRayDatasetState where
  name : String
  hdf5_path : String
  hdf5_file : Option H5File
  selection : DataSelection
  patch_size : Option (List Int)
  patch_border : Option (List Int)
  shuffle : Bool
  dimension : Int

/-- `XRayDataset.__init__` (lines 70-87).  Note line 86: `self.shuffle =
True` — the `shuffle` argument is ignored. -/
def XRayDataset.init (hdf5_path : String) (data_selection : DataSelection)
    (name : String) (patch_size patch_border : Option (List Int))
    (dimension : Int) (shuffle : Bool) : XRayDatasetState :=
  { name := name
    hdf5_path := hdf5_path
    hdf5_file := none
    selection := data_selection
    patch_size := patch_size
    patch_border := patch_border
    shuffle := true
    dimension := dimension }

/-- `XRayDataset.__len__`. -/
def XRayDataset.len (ds : XRayDatasetState) : Int :=
  ds.selection.num_points

/-- The shuffling branch of the patch-start choice (line 121):
`[np.random.randint(0, max_starts[i]) for i in range(self.dimension)]`. -/
def patch_starts_shuffled (dimension : Int) (max_starts : List Int)
    (rand : Nat → Int) : Except PyErr (List Int) :=
  (List.range dimension.toNat).mapM (fun i => do
    let m ← pyListGet max_starts (Int.ofNat i)
    np_randint 0 m (rand i))

/-- The deterministic centered branch of the patch-start choice (line 123):
`[max_starts[i] // 2 for i in range(self.dimension)]`. -/
def patch_starts_centered (dimension : Int) (max_starts : List Int) :
    Except PyErr (List Int) :=
  (List.range dimension.toNat).mapM (fun i => do
    let m ← pyListGet max_starts (Int.ofNat i)
    pure (m.fdiv 2))

/-- Lines 120-123 of `__getitem__`: choose the patch starts. -/
def choose_patch_starts (shuffle : Bool) (dimension : Int)
    (max_starts : List Int) (rand : Nat → Int) : Except PyErr (List Int) :=
  if shuffle then patch_starts_shuffled dimension max_starts rand
  else patch_starts_centered dimension max_starts

/-- `XRayDataset.compute_border_mask` (lines 141-175), faithful to the code:
`start = border[i]` reduced by `patch_starts[i]` when `border[i] >
patch_starts[i]`; `end = border[i]` reduced by the overflow past the far edge
when `border[i] > init_shape[i] - (patch_starts[i] + patch_size[i])`; the
slice kept is `[start, patch_size[i] - end)`. -/
def compute_border_mask (ds : XRayDatasetState) (init_shape patch_starts : List Int) :
    Except PyErr (Tensor Bool) :=
  if pyFalsy ds.patch_size then .ok (Tensor.full init_shape true)
  else if pyFalsy ds.patch_border then .ok (Tensor.full (ds.patch_size.getD []) true)
  else do
    let slices ← (List.range ds.dimension.toNat).mapM (fun i => do
      let b ← pyListGet (ds.patch_border.getD []) (Int.ofNat i)
      let pst ← pyListGet patch_starts (Int.ofNat i)
      let ish ← pyListGet init_shape (Int.ofNat i)
      let psz ← pyListGet (ds.patch_size.getD []) (Int.ofNat i)
      let start := if b > pst then b - pst else b
      let e := if b > ish - (pst + psz) then b - (ish - (pst + psz)) else b
      pure (start, psz - e))
    pure ((Tensor.full (ds.patch_size.getD []) false).setSlice slices true)

/-- Lines 114-139 of `__getitem__`: extract a patch if one is configured,
compute the border mask from the pre-patch shape and the chosen patch
starts, and add the leading channel dimension. -/
def patchAndMask (ds : XRayDatasetState) (rand : Nat → Int)
    (dataT labelsT : Tensor Int) :
    Except PyErr (Tensor Int × Tensor Int × Tensor Bool) :=
  match ds.patch_size with
  | none => do
    let mask ← compute_border_mask ds dataT.shape []
    pure (dataT.unsqueeze0, labelsT, mask)
  | some psize => do
    let max_starts ← (List.range ds.dimension.toNat).mapM (fun i => do
      let sh ← pyListGet dataT.shape (Int.ofNat i)
      let ps ← pyListGet psize (Int.ofNat i)
      pure (sh - ps))
    let patch_starts ← choose_patch_starts ds.shuffle ds.dimension max_starts rand
    let slices := (patch_starts.zip psize).map (fun p => (p.1, p.1 + p.2))
    let data₂ ← dataT.npSlice slices
    let labels₂ ← labelsT.npSlice slices
    let mask ← compute_border_mask ds dataT.shape patch_starts
    pure (data₂.unsqueeze0, labels₂, mask)

/-- The body of `XRayDataset.__getitem__` (lines 100-139), after the lazy
file open. -/
def getitemBody (f : H5File) (ds : XRayDatasetState) (rand : Nat → Int)
    (idx : Int) : Except PyErr (Tensor Int × Tensor Int × Tensor Bool) := do
  let sdm ← pyDivMod idx ds.selection.points_per_sample
  let sample_name ← pyListGet ds.selection.sample_list sdm.1
  let dhm ← pyDivMod sdm.2 ds.selection.num_heights
  let day_idx := dhm.1 + ds.selection.day_range.1
  let height_idx := dhm.2 + ds.selection.height_range.1
  let smp ← h5Get f sample_name
  let data₀ ← smp.data.index0 day_idx
  let labels₀ ← smp.labels.index0 day_idx
  let dl ←
    if ds.dimension = 2 then do
      let d ← data₀.index0 height_idx
      let l ← labels₀.index0 height_idx
      pure (d, l)
    else pure (data₀, labels₀)
  patchAndMask ds rand dl.1 dl.2

/-- `XRayDataset.__getitem__`: lazily open the HDF5 file (`files` maps a path
to its content, `none` modelling an `OSError` on open), then run the body.
Returns the result together with the post-call instance state (the only
mutation is the cached file handle). -/
def getitem (files : String → Option H5File) (ds : XRayDatasetState)
    (rand : Nat → Int) (idx : Int) :
    Except PyErr (Tensor Int × Tensor Int × Tensor Bool) × XRayDatasetState :=
  match ds.hdf5_file.orElse (fun _ => files ds.hdf5_path) with
  | none => (.error .osError, ds)
  | some f =>
    let ds' := { ds with hdf5_file := some f }
    (getitemBody f ds' rand idx, ds')

/-- The result component of a `__getitem__` call. -/
def getitemRes (files : String → Option H5File) (ds : XRayDatasetState)
    (rand : Nat → Int) (idx : Int) :
    Except PyErr (Tensor Int × Tensor Int × Tensor Bool) :=
  (getitem files ds rand idx).1

/-- Whether an `Except` result is a success. -/
def exOk : Except PyErr α → Bool
  | .ok _ => true
  | .error _ => false

/-- The error of an `Except` result, if any. -/
def exErr : Except PyErr α → Option PyErr
  | .ok _ => none
  | .error e => some e

/-- The index-resolution prefix of `__getitem__` (lines 100-106, in source
order: `divmod` by `points_per_sample`, the `sample_list` lookup, `divmod` by
`num_heights`, then the range offsets). -/
def resolveIndex (sel : DataSelection) (idx : Int) :
    Except PyErr (String × Int × Int) := do
  let sdm ← pyDivMod idx sel.points_per_sample
  let sample_name ← pyListGet sel.sample_list sdm.1
  let dhm ← pyDivMod sdm.2 sel.num_heights
  pure (sample_name, dhm.1 + sel.day_range.1, dhm.2 + sel.height_range.1)

/-- The (sample, day) pair a flat index resolves to. -/
def pointPair (sel : DataSelection) (idx : Int) :
    Except PyErr (String × Int) := do
  let r ← resolveIndex sel idx
  pure (r.1, r.2.1)

/-- `get_all_group_paths` (lines 338-349): enumerate the leaf groups of the
file.  The `h5py` `visit` traversal is external; the file model carries the
resulting list of leaf-group paths directly. -/
def get_all_group_paths (f : H5File) : List String :=
  f.sampleNames

/-- The configuration state of an `XRayDataModule` (its attributes after
`__init__`, lines 205-240); `validation_split` is a Python float, carried as
the exact rational value of the stored binary64 (every binary64 value is a
rational).  The per-axis broadcast of an integer `patch_size`/`patch_border`
is applied by the caller. -/
structure XRayDataModuleState where
  hdf5_path : String
  train_samples : List String
  height_range : Int × Int
  train_day_range : Int × Int
  validation_split : ℚ
  batch_size : Int
  seed : Int
  num_workers : Int
  dimension : Int
  patch_size : Option (List Int)
  patch_border : Option (List Int)

/-- Modelled from the spec and the torch documentation (torch is an external
dependency): `random_split(dataset, [num_train, num_val], generator)` draws a
seeded permutation of the index space and assigns its first `num_train`
entries to the first subset and the rest to the second, raising when the
lengths are negative or do not sum to the dataset length.  The permutation
realised by the seeded generator is passed in as `perm`. -/
def random_split_model (perm : List Nat) (num_train num_val : Int) :
    Except PyErr (List Nat × List Nat) :=
  if num_train < 0 ∨ num_val < 0 ∨ num_train + num_val ≠ (perm.length : Int) then
    .error .valueError
  else
    .ok (perm.take num_train.toNat, perm.drop num_train.toNat)

/-- The outputs of `XRayDataModule.prepare_data` that the claims are about:
the train+val selection, the train/val index partition, and the three test
selections. -/
structure PreparedData where
  train_val_selection : DataSelection
  train_indices : List Nat
  val_indices : List Nat
  strict_test_selection : DataSelection
  overlap_same_days_selection : DataSelection
  overlap_same_samples_selection : DataSelection
deriving DecidableEq

/-- `XRayDataModule.prepare_data` (lines 242-323): build the train+val
selection, split its indices at the validation fraction, discover the test
samples and days, and build the three test selections.
`int(self.validation_split * len(train_val_dataset))` at line 255 multiplies
two binary64 floats (the length is converted to float first), so the product
is `flRound`-rounded before truncation — it is not the exact rational
product.  `list(set(all) - set(train))` leaves the order of `test_samples`
unspecified; the model uses the (membership-equal) filtered, deduplicated
visit order. -/
def prepare_data (m : XRayDataModuleState) (f : H5File) (perm : List Nat) :
    Except PyErr PreparedData := do
  let train_val_selection : DataSelection :=
    { sample_list := m.train_samples
      height_range := m.height_range
      day_range := m.train_day_range
      dimension := m.dimension }
  let num_val := pyInt (pyFloatMul m.validation_split
    (pyFloatOfInt train_val_selection.num_points))
  let num_train := train_val_selection.num_points - num_val
  let tv ← random_split_model perm num_train num_val
  let all_samples := get_all_group_paths f
  let test_samples := (all_samples.filter (fun s => decide (¬ s ∈ m.train_samples))).dedup
  let first ← pyListGet all_samples 0
  let smp ← h5Get f first
  let total_days ← pyListGet smp.data.shape 0
  let test_day_range := (m.train_day_range.2, total_days)
  let strict_test_selection : DataSelection :=
    { sample_list := test_samples
      height_range := m.height_range
      day_range := test_day_range
      dimension := m.dimension }
  let overlap_same_days_selection : DataSelection :=
    { sample_list := test_samples
      height_range := m.height_range
      day_range := m.train_day_range
      dimension := m.dimension }
  let overlap_same_samples_selection : DataSelection :=
    { sample_list := m.train_samples
      height_range := m.height_range
      day_range := test_day_range
      dimension := m.dimension }
  pure { train_val_selection := train_val_selection
         train_indices := tv.1
         val_indices := tv.2
         strict_test_selection := strict_test_selection
         overlap_same_days_selection := overlap_same_days_selection
         overlap_same_samples_selection := overlap_same_samples_selection }

/-- Well-formedness of a selection's ranges and dimension: dimension 2 or 3,
a non-empty height range and an ordered day range, all within non-negative
coordinates. -/
def wfSel (sel : DataSelection) : Bool :=
  (decide (sel.dimension = 2) || decide (sel.dimension = 3)) &&
  decide (0 ≤ sel.height_range.1) &&
  decide (sel.height_range.1 < sel.height_range.2) &&
  decide (0 ≤ sel.day_range.1) &&
  decide (sel.day_range.1 ≤ sel.day_range.2)

/-- Well-formedness of the patch configuration against the spatial shape
`sh` of one loaded (per-point) array: either no patch, or the patch fits
strictly inside every spatial axis (so that `np.random.randint(0,
max_start)` has a non-empty range). -/
def wfShape (ds : XRayDatasetState) (sh : List Int) : Bool :=
  match ds.patch_size with
  | none => true
  | some ps =>
    decide (ds.dimension.toNat ≤ ps.length) &&
    decide (ds.dimension.toNat ≤ sh.length) &&
    (List.range ds.dimension.toNat).all (fun i =>
      decide (ps.getD i 0 < sh.getD i 0))

/-- Well-formedness of the border configuration: when present it covers
every iterated axis. -/
def wfBorder (ds : XRayDatasetState) : Bool :=
  match ds.patch_border with
  | none => true
  | some pb => decide (ds.dimension.toNat ≤ pb.length)

/-- Well-formedness of one stored sample against the dataset configuration:
present in the file, `labels` shaped like `data`, the day axis covering the
selection's day range, for dimension 2 a height axis covering the height
range, and the remaining spatial shape admitting the patch. -/
def wfSample (ds : XRayDatasetState) (o : Option H5Sample) : Bool :=
  match o with
  | none => false
  | some smp =>
    let sh := smp.data.shape
    decide (smp.labels.shape = sh) &&
    decide (1 ≤ sh.length) &&
    decide (ds.selection.day_range.2 ≤ sh.getD 0 0) &&
    (if ds.dimension = 2 then
      decide (2 ≤ sh.length) &&
      decide (ds.selection.height_range.2 ≤ sh.getD 1 0) &&
      wfShape ds (sh.drop 2)
    else
      wfShape ds (sh.drop 1))

/-- Well-formedness of a dataset instance against an opened file: consistent
dimensions, well-formed ranges, a border covering the iterated axes, and
every listed sample stored compatibly. -/
def wf (ds : XRayDatasetState) (f : H5File) : Bool :=
  wfSel ds.selection &&
  decide (ds.dimension = ds.selection.dimension) &&
  wfBorder ds &&
  ds.selection.sample_list.all (fun s => wfSample ds (f.samples s))

/-- The margin excluded at the low end of an axis, as `compute_border_mask`
computes it. -/
def maskStart (b pst : Int) : Int := if b > pst then b - pst else b

/-- The margin excluded at the high end of an axis, as `compute_border_mask`
computes it (`ov` is the room left between the patch and the far edge). -/
def maskEndMargin (b ov : Int) : Int := if b > ov then b - ov else b

theorem pyDivMod_pos {a b : Int} (hb : 0 < b) :
    pyDivMod a b = .ok (a / b, a % b) := by
  unfold pyDivMod
  rw [if_neg (by omega), Int.fdiv_eq_ediv _ (le_of_lt hb),
    Int.fmod_eq_emod _ (le_of_lt hb)]

theorem pyListGet_ok {l : List α} {i : Int} (d : α) (h0 : 0 ≤ i)
    (h : i < l.length) : pyListGet l i = .ok (l.getD i.toNat d) := by
  unfold pyListGet
  rw [dif_pos ⟨h0, h⟩]
  congr 1
  rw [List.getD_eq_getElem l d (by omega)]
  simp [List.get_eq_getElem]

theorem pyListGet_neg_ok {l : List α} {i : Int} (d : α)
    (h0 : -(l.length : Int) ≤ i) (h : i < 0) :
    pyListGet l i = .ok (l.getD (i + l.length).toNat d) := by
  unfold pyListGet
  rw [dif_neg (by omega), dif_pos ⟨h0, h⟩]
  congr 1
  rw [List.getD_eq_getElem l d (by omega)]
  simp [List.get_eq_getElem]

theorem pyListGet_err {l : List α} {i : Int}
    (h : i < -(l.length : Int) ∨ (l.length : Int) ≤ i) :
    pyListGet l i = .error .indexError := by
  unfold pyListGet
  rw [dif_neg (by omega), dif_neg (by omega)]

theorem pyListGet_mem {l : List α} {i : Int} {x : α}
    (h : pyListGet l i = .ok x) : x ∈ l := by
  unfold pyListGet at h
  split at h
  · cases h; exact List.get_mem _ _ _
  · split at h
    · cases h; exact List.get_mem _ _ _
    · cases h

theorem mapM_ok {f : β → Except PyErr γ} {g : β → γ} :
    ∀ {xs : List β}, (∀ x ∈ xs, f x = .ok (g x)) →
      xs.mapM f = .ok (xs.map g) := by
  intro xs
  induction xs with
  | nil => intro _; rfl
  | cons x xs ih =>
    intro h
    rw [List.mapM_cons, h x (by simp), List.map_cons,
      ih (fun y hy => h y (by simp [hy]))]
    rfl

theorem getD_map_range {g : Nat → β} {i n : Nat} (d : β) (hi : i < n) :
    ((List.range n).map g).getD i d = g i := by
  rw [List.getD_eq_getElem _ d (by simpa using hi)]
  simp

theorem inSlices_iff :
    ∀ (slices : List (Int × Int)) (shape ix : List Int),
      shape.length = slices.length → ix.length = slices.length →
      (inSlices slices shape ix = true ↔
        ∀ i, i < slices.length →
          pySliceNorm (slices.getD i (0, 0)).1 (shape.getD i 0) ≤ ix.getD i 0 ∧
          ix.getD i 0 < pySliceNorm (slices.getD i (0, 0)).2 (shape.getD i 0)) := by
  intro slices
  induction slices with
  | nil => intro shape ix _ _; simp [inSlices]
  | cons s srest ih =>
    intro shape ix h1 h2
    cases shape with
    | nil => simp at h1
    | cons n shrest =>
      cases ix with
      | nil => simp at h2
      | cons i irest =>
        obtain ⟨a, b⟩ := s
        simp only [inSlices, Bool.and_eq_true, decide_eq_true_eq]
        rw [ih shrest irest (by simpa using h1) (by simpa using h2)]
        constructor
        · rintro ⟨⟨hl, hr⟩, hrest⟩ j hj
          cases j with
          | zero => simpa using ⟨hl, hr⟩
          | succ k =>
            have hk : k < srest.length := by
              simp only [List.length_cons] at hj; omega
            simpa using hrest k hk
        · intro h
          have h0 := h 0 (by simp)
          simp only [List.getD_cons_zero] at h0
          refine ⟨h0, fun k hk => ?_⟩
          have hx := h (k + 1) (by simp only [List.length_cons]; omega)
          simpa using hx

theorem pySliceNorm_of_bounds {x n : Int} (h0 : 0 ≤ x) (h1 : x ≤ n) :
    pySliceNorm x n = x := by
  unfold pySliceNorm
  rw [if_neg (by omega)]
  omega

/-- C5: when both `patch_size` and `patch_border` are configured,
`compute_border_mask` starts from an all-false mask of the patch shape and,
on each axis `i`, marks exactly the slice `[start, patch_size[i] - end)` as
included, where `start = border[i]` reduced by `patch_starts[i]` when
`border[i] > patch_starts[i]`, and `end = border[i]` reduced by the amount
the border overflows the far edge when `border[i] > init_shape[i] -
(patch_starts[i] + patch_size[i])`; everything outside the cross-product of
these slices stays false. -/
theorem border_mask_slice_characterization
    (ds : XRayDatasetState) (psize pborder psts ishape : List Int) (n : Nat)
    (hps : ds.patch_size = some psize) (hpb : ds.patch_border = some pborder)
    (hdim : ds.dimension = (n : Int)) (hn : 0 < n)
    (h1 : psize.length = n) (h2 : pborder.length = n)
    (h3 : psts.length = n) (h4 : ishape.length = n)
    (hbnd : ∀ i, i < n →
      0 ≤ pborder.getD i 0 ∧ pborder.getD i 0 ≤ psize.getD i 0 ∧
      0 ≤ psts.getD i 0 ∧ psts.getD i 0 + psize.getD i 0 ≤ ishape.getD i 0) :
    ∃ m, compute_border_mask ds ishape psts = .ok m ∧ m.shape = psize ∧
      ∀ ix : List Int, ix.length = n →
        (m.val ix = true ↔ ∀ i, i < n →
          maskStart (pborder.getD i 0) (psts.getD i 0) ≤ ix.getD i 0 ∧
          ix.getD i 0 < psize.getD i 0 -
            maskEndMargin (pborder.getD i 0)
              (ishape.getD i 0 - (psts.getD i 0 + psize.getD i 0))) := by
  have hpsf : pyFalsy ds.patch_size = false := by
    rw [hps]
    cases psize with
    | nil => simp at h1; omega
    | cons a l => rfl
  have hpbf : pyFalsy ds.patch_border = false := by
    rw [hpb]
    cases pborder with
    | nil => simp at h2; omega
    | cons a l => rfl
  have hdn : ds.dimension.toNat = n := by rw [hdim]; simp
  have hf : ∀ i ∈ List.range n,
      (do
        let b ← pyListGet pborder (Int.ofNat i)
        let pst ← pyListGet psts (Int.ofNat i)
        let ish ← pyListGet ishape (Int.ofNat i)
        let psz ← pyListGet psize (Int.ofNat i)
        let start := if b > pst then b - pst else b
        let e := if b > ish - (pst + psz) then b - (ish - (pst + psz)) else b
        pure (start, psz - e) : Except PyErr (Int × Int)) =
      .ok (maskStart (pborder.getD i 0) (psts.getD i 0),
        psize.getD i 0 - maskEndMargin (pborder.getD i 0)
          (ishape.getD i 0 - (psts.getD i 0 + psize.getD i 0))) := by
    intro i hi
    rw [List.mem_range] at hi
    rw [pyListGet_ok 0 (by simp only [Int.ofNat_eq_natCast]; omega)
        (by simp only [Int.ofNat_eq_natCast]; omega),
      pyListGet_ok 0 (by simp only [Int.ofNat_eq_natCast]; omega)
        (by simp only [Int.ofNat_eq_natCast]; omega),
      pyListGet_ok 0 (by simp only [Int.ofNat_eq_natCast]; omega)
        (by simp only [Int.ofNat_eq_natCast]; omega),
      pyListGet_ok 0 (by simp only [Int.ofNat_eq_natCast]; omega)
        (by simp only [Int.ofNat_eq_natCast]; omega)]
    rfl
  have hmask : compute_border_mask ds ishape psts =
      .ok ((Tensor.full psize false).setSlice
        ((List.range n).map (fun i =>
          (maskStart (pborder.getD i 0) (psts.getD i 0),
           psize.getD i 0 - maskEndMargin (pborder.getD i 0)
             (ishape.getD i 0 - (psts.getD i 0 + psize.getD i 0))))) true) := by
    unfold compute_border_mask
    rw [hpsf, hpbf]
    simp only [Bool.false_eq_true, if_false, hps, hpb, Option.getD_some, hdn]
    rw [mapM_ok hf]
    rfl
  refine ⟨_, hmask, rfl, fun ix hlen => ?_⟩
  have hval : ((Tensor.full psize false).setSlice
      ((List.range n).map (fun i =>
        (maskStart (pborder.getD i 0) (psts.getD i 0),
         psize.getD i 0 - maskEndMargin (pborder.getD i 0)
           (ishape.getD i 0 - (psts.getD i 0 + psize.getD i 0))))) true).val ix =
      inSlices ((List.range n).map (fun i =>
        (maskStart (pborder.getD i 0) (psts.getD i 0),
         psize.getD i 0 - maskEndMargin (pborder.getD i 0)
           (ishape.getD i 0 - (psts.getD i 0 + psize.getD i 0))))) psize ix := by
    simp only [Tensor.setSlice, Tensor.full]
    split
    · next hcond => rw [hcond]
    · next hcond => rw [Bool.not_eq_true] at hcond; rw [hcond]
  rw [hval,
    inSlices_iff _ psize ix (by simp [h1]) (by simp [hlen])]
  simp only [List.length_map, List.length_range]
  constructor
  · intro h i hi
    have hx := h i hi
    rw [getD_map_range (0, 0) hi] at hx
    obtain ⟨hb0, hb1, hb2, hb3⟩ := hbnd i hi
    rw [pySliceNorm_of_bounds
        (by unfold maskStart; split <;> omega)
        (by unfold maskStart; split <;> omega),
      pySliceNorm_of_bounds
        (by unfold maskEndMargin; split <;> omega)
        (by unfold maskEndMargin; split <;> omega)] at hx
    exact hx
  · intro h i hi
    have hx := h i hi
    rw [getD_map_range (0, 0) hi]
    obtain ⟨hb0, hb1, hb2, hb3⟩ := hbnd i hi
    rw [pySliceNorm_of_bounds
        (by unfold maskStart; split <;> omega)
        (by unfold maskStart; split <;> omega),
      pySliceNorm_of_bounds
        (by unfold maskEndMargin; split <;> omega)
        (by unfold maskEndMargin; split <;> omega)]
    exact hx

/-- The mask value at one position: evaluates `compute_border_mask` at a
concrete input and reads one entry of the resulting mask. -/
def maskAt (ds : XRayDatasetState) (init_shape patch_starts p : List Int) :
    Except PyErr Bool :=
  (compute_border_mask ds init_shape patch_starts).map (fun t => t.val p)

/-- C1: the claim (and the source comment "if the border wouldn't be taken
into account by any other patch, keep it") says that for patch_size=(10,),
patch_border=(3,), axis extent 20 and patch start 0 (patch touching the low
edge) the included slice starts at index 0.  The code instead computes
`start = border - patch_start = 3 - 0 = 3`: positions 0..2 of the patch are
excluded and the first included position is 3.  This theorem evaluates the
embedded `compute_border_mask` at exactly that input. -/
theorem border_mask_low_edge_eval :
    maskAt ⟨"x", "p", none, ⟨["a"], (0, 0), (0, 0), 1⟩, some [10], some [3], true, 1⟩
        [20] [0] [0] = .ok false ∧
    maskAt ⟨"x", "p", none, ⟨["a"], (0, 0), (0, 0), 1⟩, some [10], some [3], true, 1⟩
        [20] [0] [2] = .ok false ∧
    maskAt ⟨"x", "p", none, ⟨["a"], (0, 0), (0, 0), 1⟩, some [10], some [3], true, 1⟩
        [20] [0] [3] = .ok true := by
  exact ⟨by decide, by decide, by decide⟩

/-- C3: the claim says that for patch_size=(10,), patch_border=(3,), axis
extent 20 and patch start 10 (patch touching the far edge, max_start =
20 - 10 = 10) the excluded end margin is 0, i.e. the included slice extends
to position 10.  The code instead leaves `end = border - overflow = 3 - 0 =
3`: the included slice is [3, 7) and positions 7..9 are excluded,
contradicting the source comment ("keep it").  This theorem evaluates the
embedded `compute_border_mask` at exactly that input. -/
theorem border_mask_far_edge_eval :
    maskAt ⟨"x", "p", none, ⟨["a"], (0, 0), (0, 0), 1⟩, some [10], some [3], true, 1⟩
        [20] [10] [9] = .ok false ∧
    maskAt ⟨"x", "p", none, ⟨["a"], (0, 0), (0, 0), 1⟩, some [10], some [3], true, 1⟩
        [20] [10] [7] = .ok false ∧
    maskAt ⟨"x", "p", none, ⟨["a"], (0, 0), (0, 0), 1⟩, some [10], some [3], true, 1⟩
        [20] [10] [6] = .ok true := by
  exact ⟨by decide, by decide, by decide⟩

/-- Witness for C5: the characterisation instantiated at the interior case
patch_size=(10,), patch_border=(3,), patch start 5, extent 20, where the
included slice is [3, 7). -/
theorem border_mask_slice_characterization_witness :
    (0 : Nat) < 1 ∧
    ∃ m, compute_border_mask
        ⟨"x", "p", none, ⟨["a"], (0, 0), (0, 0), 1⟩, some [10], some [3], true, 1⟩
        [20] [5] = .ok m ∧
      m.shape = [10] ∧
      ∀ ix : List Int, ix.length = 1 →
        (m.val ix = true ↔ ∀ i, i < 1 →
          maskStart (([3] : List Int).getD i 0) (([5] : List Int).getD i 0) ≤ ix.getD i 0 ∧
          ix.getD i 0 < ([10] : List Int).getD i 0 -
            maskEndMargin (([3] : List Int).getD i 0)
              (([20] : List Int).getD i 0 -
                (([5] : List Int).getD i 0 + ([10] : List Int).getD i 0))) :=
  ⟨by decide,
    border_mask_slice_characterization _ [10] [3] [5] [20] 1 rfl rfl (by decide)
      (by decide) rfl rfl rfl rfl (by decide)⟩

/-- C6: the claim says the patch start is drawn uniformly from the inclusive
range [0, max_start] and that the draw returns 0 when max_start = 0.  The
shuffled branch calls `np.random.randint(0, max_start)`, which draws from
the half-open range [0, max_start) and raises `ValueError` when
`max_start = 0`: at max_start = 0 the branch errors instead of returning 0,
`start = max_start` is never a possible outcome, and for max_start = 5 the
outcomes are exactly 0..4. -/
theorem patch_start_draw_exclusive_eval :
    patch_starts_shuffled 1 [0] (fun _ => 0) = .error .valueError ∧
    (∀ r : Nat → Int, patch_starts_shuffled 1 [5] r ≠ .ok [5]) ∧
    (∀ r : Nat → Int, ∃ s : Fin 5, patch_starts_shuffled 1 [5] r = .ok [(s : Int)]) ∧
    (∀ s : Fin 5, ∃ r : Nat → Int, patch_starts_shuffled 1 [5] r = .ok [(s : Int)]) := by
  have key : ∀ r : Nat → Int, patch_starts_shuffled 1 [5] r = .ok [r 0 % 5] := by
    intro r
    have step : (do
        let m ← pyListGet ([5] : List Int) (Int.ofNat 0)
        np_randint 0 m (r 0) : Except PyErr Int) = .ok (0 + r 0 % (5 - 0)) := by
      rw [pyListGet_ok (0 : Int) (by decide) (by decide)]
      rfl
    unfold patch_starts_shuffled
    have h1 : (1 : Int).toNat = 1 := rfl
    have h2 : List.range 1 = [0] := rfl
    rw [h1, h2, List.mapM_cons, step, List.mapM_nil]
    norm_num
  refine ⟨by decide, ?_, ?_, ?_⟩
  · intro r h
    rw [key] at h
    have h5 : r 0 % 5 < 5 := Int.emod_lt_of_pos (r 0) (by norm_num)
    simp only [Except.ok.injEq, List.cons.injEq, and_true] at h
    omega
  · intro r
    have h0 : 0 ≤ r 0 % 5 := Int.emod_nonneg (r 0) (by norm_num)
    have h5 : r 0 % 5 < 5 := Int.emod_lt_of_pos (r 0) (by norm_num)
    refine ⟨⟨(r 0 % 5).toNat, by omega⟩, ?_⟩
    rw [key]
    congr 2
    simp only []
    omega
  · intro s
    refine ⟨fun _ => (s : Int), ?_⟩
    rw [key]
    congr 2
    have h0 : (0 : Int) ≤ (s : Int) := by positivity
    have h5 : (s : Int) < 5 := by exact_mod_cast s.isLt
    exact Int.emod_eq_of_lt h0 h5

/-- Witness for C6: the exclusivity applied at the concrete draw
`r = fun _ => 3`. -/
theorem patch_start_draw_exclusive_eval_witness :
    patch_starts_shuffled 1 [5] (fun _ => 3) ≠ .ok [5] :=
  patch_start_draw_exclusive_eval.2.1 (fun _ => 3)

theorem ok_bind {α β : Type} (x : α) (f : α → Except PyErr β) :
    (Except.ok x >>= f : Except PyErr β) = f x := rfl

theorem resolveIndex_eval (sel : DataSelection) (k : Nat) (r : Int)
    (hnh : 0 < sel.num_heights) (hpps : 0 < sel.points_per_sample)
    (hk : k < sel.sample_list.length)
    (hr0 : 0 ≤ r) (hr1 : r < sel.points_per_sample) :
    resolveIndex sel (r + (k : Int) * sel.points_per_sample) =
      .ok (sel.sample_list.getD k "",
           r / sel.num_heights + sel.day_range.1,
           r % sel.num_heights + sel.height_range.1) := by
  have hq : (r + (k : Int) * sel.points_per_sample) / sel.points_per_sample = (k : Int) := by
    rw [Int.add_mul_ediv_right _ _ (by omega), Int.ediv_eq_zero_of_lt hr0 hr1]
    omega
  have hrm : (r + (k : Int) * sel.points_per_sample) % sel.points_per_sample = r := by
    rw [Int.add_mul_emod_self, Int.emod_eq_of_lt hr0 hr1]
  have hget : pyListGet sel.sample_list ((k : Int)) =
      .ok (sel.sample_list.getD k "") := by
    rw [pyListGet_ok "" (by omega) (by omega)]
    simp
  unfold resolveIndex
  rw [pyDivMod_pos hpps, ok_bind]
  simp only [hq, hrm]
  rw [hget, ok_bind]
  rw [pyDivMod_pos hnh, ok_bind]
  rfl

theorem resolveIndex_exactly_once (sel : DataSelection)
    (hnd : sel.sample_list.Nodup)
    (hnh : 0 < sel.num_heights) (hpps : 0 < sel.points_per_sample)
    (s : String) (r : Int) (hs : s ∈ sel.sample_list)
    (hr0 : 0 ≤ r) (hr1 : r < sel.points_per_sample) :
    ∃! idx : Int, 0 ≤ idx ∧ idx < sel.num_points ∧
      resolveIndex sel idx =
        .ok (s, r / sel.num_heights + sel.day_range.1,
             r % sel.num_heights + sel.height_range.1) := by
  set k := List.indexOf s sel.sample_list with hkdef
  have hk : k < sel.sample_list.length := List.indexOf_lt_length.mpr hs
  have hgetk : sel.sample_list.getD k "" = s := by
    rw [List.getD_eq_getElem _ _ hk]
    exact List.getElem_indexOf hk
  have hnp : sel.num_points = (sel.sample_list.length : Int) * sel.points_per_sample := rfl
  have hkpps : 0 ≤ (k : Int) * sel.points_per_sample :=
    mul_nonneg (by omega) (by omega)
  refine ⟨r + (k : Int) * sel.points_per_sample, ⟨by omega, ?_, ?_⟩, ?_⟩
  · have h1 : r + (k : Int) * sel.points_per_sample <
        ((k : Int) + 1) * sel.points_per_sample := by
      rw [add_one_mul]
      omega
    have h2 : ((k : Int) + 1) * sel.points_per_sample ≤
        (sel.sample_list.length : Int) * sel.points_per_sample :=
      mul_le_mul_of_nonneg_right (by omega) (by omega)
    omega
  · rw [resolveIndex_eval sel k r hnh hpps hk hr0 hr1, hgetk]
  · rintro idx' ⟨h0, h1, hres⟩
    have hq0 : 0 ≤ idx' / sel.points_per_sample := Int.ediv_nonneg h0 (by omega)
    have hqn : idx' / sel.points_per_sample < (sel.sample_list.length : Int) := by
      rw [Int.ediv_lt_iff_lt_mul hpps]
      omega
    have hrr0 : 0 ≤ idx' % sel.points_per_sample := Int.emod_nonneg idx' (by omega)
    have hrr1 : idx' % sel.points_per_sample < sel.points_per_sample :=
      Int.emod_lt_of_pos idx' hpps
    have hk2 : (idx' / sel.points_per_sample).toNat < sel.sample_list.length := by omega
    have hdecomp : idx' = idx' % sel.points_per_sample +
        (((idx' / sel.points_per_sample).toNat : Nat) : Int) * sel.points_per_sample := by
      rw [Int.toNat_of_nonneg hq0, mul_comm]
      have := Int.emod_add_ediv idx' sel.points_per_sample
      omega
    rw [hdecomp] at hres ⊢
    rw [resolveIndex_eval sel _ _ hnh hpps hk2 hrr0 hrr1] at hres
    rw [Except.ok.injEq, Prod.mk.injEq, Prod.mk.injEq] at hres
    obtain ⟨hname, hday, hheight⟩ := hres
    have hdayq : (idx' % sel.points_per_sample) / sel.num_heights =
        r / sel.num_heights := by omega
    have hheq : (idx' % sel.points_per_sample) % sel.num_heights =
        r % sel.num_heights := by omega
    have hrr : idx' % sel.points_per_sample = r := by
      have e1 := Int.ediv_add_emod (idx' % sel.points_per_sample) sel.num_heights
      have e2 := Int.ediv_add_emod r sel.num_heights
      rw [hdayq, hheq] at e1
      omega
    have hkk : (idx' / sel.points_per_sample).toNat = k := by
      have hg1 : sel.sample_list.getD (idx' / sel.points_per_sample).toNat "" = s := hname
      rw [List.getD_eq_getElem _ _ hk2] at hg1
      have hg2 : sel.sample_list[(idx' / sel.points_per_sample).toNat] =
          sel.sample_list[k] := by
        rw [hg1, ← hgetk, List.getD_eq_getElem _ _ hk]
      exact (List.Nodup.getElem_inj_iff hnd).mp hg2
    rw [hrr, hkk]

theorem resolveIndex_decompose (sel : DataSelection)
    (hnh : 0 < sel.num_heights) (hpps : 0 < sel.points_per_sample)
    (idx : Int) (h0 : 0 ≤ idx) (h1 : idx < sel.num_points) :
    resolveIndex sel idx =
      .ok (sel.sample_list.getD (idx / sel.points_per_sample).toNat "",
        (idx % sel.points_per_sample) / sel.num_heights + sel.day_range.1,
        (idx % sel.points_per_sample) % sel.num_heights + sel.height_range.1) ∧
    (idx / sel.points_per_sample).toNat < sel.sample_list.length ∧
    0 ≤ idx % sel.points_per_sample ∧
    idx % sel.points_per_sample < sel.points_per_sample := by
  have hq0 : 0 ≤ idx / sel.points_per_sample := Int.ediv_nonneg h0 (by omega)
  have hnp : sel.num_points = (sel.sample_list.length : Int) * sel.points_per_sample := rfl
  have hqn : idx / sel.points_per_sample < (sel.sample_list.length : Int) := by
    rw [Int.ediv_lt_iff_lt_mul hpps]
    omega
  have hrr0 : 0 ≤ idx % sel.points_per_sample := Int.emod_nonneg idx (by omega)
  have hrr1 : idx % sel.points_per_sample < sel.points_per_sample :=
    Int.emod_lt_of_pos idx hpps
  have hk2 : (idx / sel.points_per_sample).toNat < sel.sample_list.length := by omega
  have hdecomp : idx = idx % sel.points_per_sample +
      (((idx / sel.points_per_sample).toNat : Nat) : Int) * sel.points_per_sample := by
    rw [Int.toNat_of_nonneg hq0, mul_comm]
    have := Int.emod_add_ediv idx sel.points_per_sample
    omega
  refine ⟨?_, hk2, hrr0, hrr1⟩
  conv_lhs => rw [hdecomp]
  exact resolveIndex_eval sel _ _ hnh hpps hk2 hrr0 hrr1

/-- C2 counterexample: for the dimension-3 selection with sample_list ["a"],
day_range [0, 2) and height_range [0, 2) (num_heights = 2), num_points = 2
but indices 0 and 1 both resolve to day 0 (the remainder is divided by
num_heights even though dimension = 3): the in-range pair ("a", day 1) is
never visited, so the resolution is not a bijection onto
sample_list × day_range when dimension = 3. -/
theorem index_resolution_dim3_not_bijective :
    (⟨["a"], (0, 2), (0, 2), 3⟩ : DataSelection).num_points = 2 ∧
    resolveIndex ⟨["a"], (0, 2), (0, 2), 3⟩ 0 = .ok ("a", 0, 0) ∧
    resolveIndex ⟨["a"], (0, 2), (0, 2), 3⟩ 1 = .ok ("a", 0, 1) :=
  ⟨by decide, by decide, by decide⟩

/-- C2 (amended): for every selection with distinct sample names,
`num_points = num_samples * points_per_sample`, and the index resolution of
`__getitem__` visits, over `idx ∈ [0, num_points)`, every in-range
(sample, day, height) combination exactly once when dimension = 2, and every
in-range (sample, day) combination exactly once when dimension ≠ 2 *provided
num_heights = 1* (for num_heights ≥ 2 the dimension-3 resolution is not a
bijection onto sample_list × day_range, see the counterexample). -/
theorem index_resolution_exactly_once (sel : DataSelection)
    (hnd : sel.sample_list.Nodup) :
    sel.num_points = sel.num_samples * sel.points_per_sample ∧
    (sel.dimension = 2 → ∀ s d h, s ∈ sel.sample_list →
      sel.day_range.1 ≤ d → d < sel.day_range.2 →
      sel.height_range.1 ≤ h → h < sel.height_range.2 →
      ∃! idx : Int, 0 ≤ idx ∧ idx < sel.num_points ∧
        resolveIndex sel idx = .ok (s, d, h)) ∧
    (sel.dimension = 2 → 0 < sel.num_heights →
      ∀ idx : Int, 0 ≤ idx → idx < sel.num_points →
      ∃ s d h, s ∈ sel.sample_list ∧
        sel.day_range.1 ≤ d ∧ d < sel.day_range.2 ∧
        sel.height_range.1 ≤ h ∧ h < sel.height_range.2 ∧
        resolveIndex sel idx = .ok (s, d, h)) ∧
    (sel.dimension ≠ 2 → sel.num_heights = 1 → ∀ s d, s ∈ sel.sample_list →
      sel.day_range.1 ≤ d → d < sel.day_range.2 →
      ∃! idx : Int, 0 ≤ idx ∧ idx < sel.num_points ∧
        resolveIndex sel idx = .ok (s, d, sel.height_range.1)) ∧
    (sel.dimension ≠ 2 → sel.num_heights = 1 →
      ∀ idx : Int, 0 ≤ idx → idx < sel.num_points →
      ∃ s d, s ∈ sel.sample_list ∧
        sel.day_range.1 ≤ d ∧ d < sel.day_range.2 ∧
        resolveIndex sel idx = .ok (s, d, sel.height_range.1)) := by
  have hnh_eq : sel.num_heights = sel.height_range.2 - sel.height_range.1 := rfl
  have hnd_eq : sel.num_days = sel.day_range.2 - sel.day_range.1 := rfl
  have hnp : sel.num_points = (sel.sample_list.length : Int) * sel.points_per_sample := rfl
  refine ⟨rfl, ?_, ?_, ?_, ?_⟩
  · -- dimension = 2: each in-range triple is hit exactly once
    intro h2 s d h hs hd1 hd2 hh1 hh2
    have hnh : 0 < sel.num_heights := by omega
    have hpps_eq : sel.points_per_sample = sel.num_heights * sel.num_days := by
      unfold DataSelection.points_per_sample
      rw [if_pos h2]
    have hpps : 0 < sel.points_per_sample := by
      rw [hpps_eq]
      exact mul_pos hnh (by omega)
    have hr0 : 0 ≤ (h - sel.height_range.1) + (d - sel.day_range.1) * sel.num_heights := by
      have := mul_nonneg (by omega : (0:Int) ≤ d - sel.day_range.1) (by omega : (0:Int) ≤ sel.num_heights)
      omega
    have hr1 : (h - sel.height_range.1) + (d - sel.day_range.1) * sel.num_heights <
        sel.points_per_sample := by
      have e1 : ((d - sel.day_range.1) + 1) * sel.num_heights ≤
          sel.num_days * sel.num_heights :=
        mul_le_mul_of_nonneg_right (by omega) (by omega)
      have e2 : ((d - sel.day_range.1) + 1) * sel.num_heights =
          (d - sel.day_range.1) * sel.num_heights + sel.num_heights := by ring
      have e3 : sel.num_days * sel.num_heights = sel.num_heights * sel.num_days :=
        mul_comm _ _
      omega
    have hrd : ((h - sel.height_range.1) + (d - sel.day_range.1) * sel.num_heights) /
        sel.num_heights = d - sel.day_range.1 := by
      rw [Int.add_mul_ediv_right _ _ (by omega),
        Int.ediv_eq_zero_of_lt (by omega) (by omega)]
      omega
    have hrm : ((h - sel.height_range.1) + (d - sel.day_range.1) * sel.num_heights) %
        sel.num_heights = h - sel.height_range.1 := by
      rw [Int.add_mul_emod_self, Int.emod_eq_of_lt (by omega) (by omega)]
    have key := resolveIndex_exactly_once sel hnd hnh hpps s
      ((h - sel.height_range.1) + (d - sel.day_range.1) * sel.num_heights) hs hr0 hr1
    rw [hrd, hrm] at key
    have ed : d - sel.day_range.1 + sel.day_range.1 = d := by omega
    have eh : h - sel.height_range.1 + sel.height_range.1 = h := by omega
    rw [ed, eh] at key
    exact key
  · -- dimension = 2: each in-range index lands on an in-range triple
    intro h2 hnh idx h0 h1
    have hpps_eq : sel.points_per_sample = sel.num_heights * sel.num_days := by
      unfold DataSelection.points_per_sample
      rw [if_pos h2]
    have hpps : 0 < sel.points_per_sample := by
      rcases lt_trichotomy sel.points_per_sample 0 with hc | hc | hc
      · exfalso
        have hle : (sel.sample_list.length : Int) * sel.points_per_sample ≤ 0 :=
          mul_nonpos_iff.mpr (Or.inl ⟨Int.natCast_nonneg _, by omega⟩)
        omega
      · exfalso
        rw [hc, mul_zero] at hnp
        omega
      · exact hc
    have hnd : 0 < sel.num_days := by
      rcases lt_trichotomy sel.num_days 0 with hc | hc | hc
      · exfalso
        have : sel.num_heights * sel.num_days ≤ 0 :=
          mul_nonpos_iff.mpr (Or.inl ⟨by omega, by omega⟩)
        omega
      · exfalso; rw [hpps_eq, hc, mul_zero] at hpps; omega
      · exact hc
    obtain ⟨hres, hk, hr0, hr1⟩ := resolveIndex_decompose sel hnh hpps idx h0 h1
    refine ⟨_, _, _, ?_, ?_, ?_, ?_, ?_, hres⟩
    · rw [List.getD_eq_getElem _ _ hk]
      exact List.getElem_mem _
    · have := Int.ediv_nonneg hr0 (by omega : (0:Int) ≤ sel.num_heights)
      omega
    · have : (idx % sel.points_per_sample) / sel.num_heights < sel.num_days := by
        rw [Int.ediv_lt_iff_lt_mul hnh]
        have := mul_comm sel.num_days sel.num_heights
        omega
      omega
    · have := Int.emod_nonneg (idx % sel.points_per_sample)
        (by omega : sel.num_heights ≠ 0)
      omega
    · have := Int.emod_lt_of_pos (idx % sel.points_per_sample) hnh
      omega
  · -- dimension ≠ 2, num_heights = 1: each in-range pair is hit exactly once
    intro h3 hnh1 s d hs hd1 hd2
    have hnh : 0 < sel.num_heights := by omega
    have hpps_eq : sel.points_per_sample = sel.num_days := by
      unfold DataSelection.points_per_sample
      rw [if_neg h3]
    have hpps : 0 < sel.points_per_sample := by omega
    have key := resolveIndex_exactly_once sel hnd hnh hpps s
      (d - sel.day_range.1) hs (by omega) (by omega)
    rw [hnh1] at key
    rw [Int.ediv_one, Int.emod_one] at key
    have ed : d - sel.day_range.1 + sel.day_range.1 = d := by omega
    have eh : (0 : Int) + sel.height_range.1 = sel.height_range.1 := by omega
    rw [ed, eh] at key
    exact key
  · -- dimension ≠ 2, num_heights = 1: each in-range index lands on an in-range pair
    intro h3 hnh1 idx h0 h1
    have hnh : 0 < sel.num_heights := by omega
    have hpps_eq : sel.points_per_sample = sel.num_days := by
      unfold DataSelection.points_per_sample
      rw [if_neg h3]
    have hpps : 0 < sel.points_per_sample := by
      rcases lt_trichotomy sel.points_per_sample 0 with hc | hc | hc
      · exfalso
        have hle : (sel.sample_list.length : Int) * sel.points_per_sample ≤ 0 :=
          mul_nonpos_iff.mpr (Or.inl ⟨Int.natCast_nonneg _, by omega⟩)
        omega
      · exfalso
        rw [hc, mul_zero] at hnp
        omega
      · exact hc
    obtain ⟨hres, hk, hr0, hr1⟩ := resolveIndex_decompose sel hnh hpps idx h0 h1
    rw [hnh1, Int.ediv_one, Int.emod_one] at hres
    have e0 : (0 : Int) + sel.height_range.1 = sel.height_range.1 := by omega
    rw [e0] at hres
    refine ⟨_, _, ?_, by omega, by omega, hres⟩
    rw [List.getD_eq_getElem _ _ hk]
    exact List.getElem_mem _

/-- Witness for C2 (amended) at the dimension-2 selection with samples
["a", "b"], height_range [1, 3) and day_range [2, 4): the combination
("b", day 3, height 2) is visited by exactly one index. -/
theorem index_resolution_exactly_once_witness :
    ∃! idx : Int, 0 ≤ idx ∧
      idx < (⟨["a", "b"], (1, 3), (2, 4), 2⟩ : DataSelection).num_points ∧
      resolveIndex ⟨["a", "b"], (1, 3), (2, 4), 2⟩ idx = .ok ("b", 3, 2) :=
  (index_resolution_exactly_once ⟨["a", "b"], (1, 3), (2, 4), 2⟩
    (by decide)).2.1 rfl "b" 3 2 (by decide) (by decide) (by decide)
    (by decide) (by decide)

/-- C7: for every value of the `shuffle` constructor argument, the
constructed dataset has `shuffle = true` (line 86 assigns the constant
`True`, ignoring the argument); `__getitem__` — the only operation that
mutates the instance — leaves the field `true`; and consequently the
patch-start choice of a constructed dataset always takes the shuffled
random branch, never the deterministic centered branch
`max_start // 2`. -/
theorem shuffle_always_true (hdf5_path : String) (sel : DataSelection)
    (name : String) (ps pb : Option (List Int)) (dim : Int)
    (shuffle_arg : Bool) :
    (XRayDataset.init hdf5_path sel name ps pb dim shuffle_arg).shuffle = true ∧
    (∀ files rand idx,
      ((getitem files (XRayDataset.init hdf5_path sel name ps pb dim shuffle_arg)
        rand idx).2).shuffle = true) ∧
    (∀ d ms rand,
      choose_patch_starts
        (XRayDataset.init hdf5_path sel name ps pb dim shuffle_arg).shuffle
        d ms rand = patch_starts_shuffled d ms rand) := by
  refine ⟨rfl, fun files rand idx => ?_, fun d ms rand => rfl⟩
  unfold getitem
  cases hf : files hdf5_path with
  | none =>
    simp only [XRayDataset.init, Option.orElse, hf]
  | some f =>
    simp only [XRayDataset.init, Option.orElse, hf]

theorem error_bind {α β : Type} (e : PyErr) (f : α → Except PyErr β) :
    (Except.error e >>= f : Except PyErr β) = .error e := rfl

theorem pyListGet_total {l : List α} {i : Int} (h0 : -(l.length : Int) ≤ i)
    (h1 : i < l.length) : ∃ x, pyListGet l i = .ok x := by
  cases l with
  | nil => simp at h0 h1; omega
  | cons a t =>
    rcases le_or_lt 0 i with hc | hc
    · exact ⟨_, pyListGet_ok a hc h1⟩
    · exact ⟨_, pyListGet_neg_ok a h0 hc⟩

/-- C10 counterexample: for the dimension-3 selection with sample_list
["a"], empty height_range [5, 5) and day_range [0, 2), `num_points = 2`, but
the call at the out-of-range index 2 fails with an `IndexError` from the
`sample_list` lookup (which happens before the `divmod` by `num_heights`),
not with a division-by-zero error — so not *every* call fails with
ZeroDivisionError. -/
theorem getitem_empty_heights_not_always_div_zero :
    (⟨["a"], (5, 5), (0, 2), 3⟩ : DataSelection).num_points = 2 ∧
    exErr (getitemRes
      (fun s => if s = "p" then
        some ⟨["a"], fun s' => if s' = "a" then
          some ⟨⟨[4, 3, 20], fun _ => 0⟩, ⟨[4, 3, 20], fun _ => 0⟩⟩ else none⟩
      else none)
      ⟨"t", "p", none, ⟨["a"], (5, 5), (0, 2), 3⟩, none, none, true, 3⟩
      (fun _ => 0) 2) = some .indexError ∧
    some PyErr.indexError ≠ some PyErr.zeroDivision :=
  ⟨by decide, by decide, by decide⟩

/-- C10 (amended): `__getitem__` computes `divmod(data_idx, num_heights)`
for every dimension, so when the selection's height range is empty
(`num_heights = 0`) every call whose index resolves inside the sample list
fails with ZeroDivisionError — in particular every idx in
[-num_points, num_points), even when dimension = 3 where the height index is
never used to access data; and when dimension = 2 every call whatsoever
fails with ZeroDivisionError (points_per_sample is already 0).  Out-of-range
indices may fail with IndexError instead (see the counterexample). -/
theorem getitem_empty_heights_div_zero (ds : XRayDatasetState) (f : H5File)
    (files : String → Option H5File) (rand : Nat → Int)
    (hfile : ds.hdf5_file = some f)
    (hnh : ds.selection.num_heights = 0) :
    (ds.selection.dimension = 2 →
      ∀ idx : Int, getitemRes files ds rand idx = .error .zeroDivision) ∧
    (∀ idx : Int, -ds.selection.num_points ≤ idx →
      idx < ds.selection.num_points →
      getitemRes files ds rand idx = .error .zeroDivision) := by
  have hnp : ds.selection.num_points =
      (ds.selection.sample_list.length : Int) * ds.selection.points_per_sample := rfl
  constructor
  · intro h2 idx
    have hpps0 : ds.selection.points_per_sample = 0 := by
      unfold DataSelection.points_per_sample
      rw [if_pos h2, hnh, zero_mul]
    have hdm : pyDivMod idx ds.selection.points_per_sample = .error .zeroDivision := by
      rw [hpps0]
      rfl
    unfold getitemRes getitem
    rw [hfile]
    show (getitemBody f _ rand idx) = _
    unfold getitemBody
    rw [hdm, error_bind]
  · intro idx h0 h1
    rcases lt_trichotomy ds.selection.points_per_sample 0 with hc | hc | hc
    · exfalso
      have hle : (ds.selection.sample_list.length : Int) *
          ds.selection.points_per_sample ≤ 0 :=
        mul_nonpos_iff.mpr (Or.inl ⟨Int.natCast_nonneg _, by omega⟩)
      omega
    · have hdm : pyDivMod idx ds.selection.points_per_sample = .error .zeroDivision := by
        rw [hc]
        rfl
      unfold getitemRes getitem
      rw [hfile]
      show (getitemBody f _ rand idx) = _
      unfold getitemBody
      rw [hdm, error_bind]
    · have hq0 : -(ds.selection.sample_list.length : Int) ≤
          idx / ds.selection.points_per_sample := by
        rw [Int.le_ediv_iff_mul_le hc]
        have := neg_mul (ds.selection.sample_list.length : Int)
          ds.selection.points_per_sample
        omega
      have hqn : idx / ds.selection.points_per_sample <
          (ds.selection.sample_list.length : Int) := by
        rw [Int.ediv_lt_iff_lt_mul hc]
        omega
      obtain ⟨s, hget⟩ := pyListGet_total (l := ds.selection.sample_list) hq0 hqn
      have hdm2 : pyDivMod (idx % ds.selection.points_per_sample)
          ds.selection.num_heights = .error .zeroDivision := by
        rw [hnh]
        rfl
      unfold getitemRes getitem
      rw [hfile]
      show (getitemBody f _ rand idx) = _
      unfold getitemBody
      rw [pyDivMod_pos hc, ok_bind]
      simp only []
      rw [hget, ok_bind, hdm2, error_bind]

/-- Witness for C10 (amended): a concrete dimension-3 dataset with an empty
height range, called at the in-range index 0, fails with
ZeroDivisionError. -/
theorem getitem_empty_heights_div_zero_witness :
    getitemRes
      (fun s => if s = "p" then
        some ⟨["a"], fun s' => if s' = "a" then
          some ⟨⟨[4, 3, 20], fun _ => 0⟩, ⟨[4, 3, 20], fun _ => 0⟩⟩ else none⟩
      else none)
      ⟨"t", "p",
        some ⟨["a"], fun s' => if s' = "a" then
          some ⟨⟨[4, 3, 20], fun _ => 0⟩, ⟨[4, 3, 20], fun _ => 0⟩⟩ else none⟩,
        ⟨["a"], (5, 5), (0, 2), 3⟩, none, none, true, 3⟩
      (fun _ => 0) 0 = .error .zeroDivision :=
  (getitem_empty_heights_div_zero _ _ _ _ rfl (by decide)).2 0 (by decide) (by decide)

theorem pyInt_eq_floor {q : ℚ} (h : 0 ≤ q) : pyInt q = ⌊q⌋ := by
  unfold pyInt
  rw [Rat.floor_def]
  exact Int.tdiv_eq_ediv (Rat.num_nonneg.mpr h) (Int.natCast_nonneg _)

theorem roundNearestEven_intCast (m : Int) : roundNearestEven (m : ℚ) = m := by
  unfold roundNearestEven
  simp [Int.floor_intCast]

theorem int_log2_eq {q : ℚ} {e : Int} (hq : 0 < q)
    (h1 : (2 : ℚ) ^ e ≤ q) (h2 : q < (2 : ℚ) ^ (e + 1)) :
    Int.log 2 q = e := by
  have ha := Int.zpow_log_le_self (b := 2) (R := ℚ) one_lt_two hq
  have hb := Int.lt_zpow_succ_log_self (b := 2) (R := ℚ) one_lt_two q
  simp only [Nat.cast_ofNat] at ha hb
  by_contra hne
  rcases lt_or_gt_of_ne hne with hlt | hgt
  · have hstep : (2 : ℚ) ^ (Int.log 2 q + 1) ≤ (2 : ℚ) ^ e :=
      zpow_le_zpow_right₀ one_le_two (by omega)
    linarith
  · have hstep : (2 : ℚ) ^ (e + 1) ≤ (2 : ℚ) ^ (Int.log 2 q) :=
      zpow_le_zpow_right₀ one_le_two (by omega)
    linarith

theorem flRound_eval (e : Int) {q r : ℚ} (hq : 0 < q)
    (h1 : (2 : ℚ) ^ e ≤ q) (h2 : q < (2 : ℚ) ^ (e + 1))
    (hr : ((roundNearestEven (q * 2 ^ ((52 : Int) - e)) : Int) : ℚ) *
      2 ^ (e - (52 : Int)) = r) :
    flRound q = r := by
  have hlog : Int.log 2 q = e := int_log2_eq hq h1 h2
  unfold flRound
  rw [if_neg (ne_of_gt hq), abs_of_pos hq, hlog, hr]

theorem flRound_exact (e m : Int) {q : ℚ} (hq : 0 < q)
    (h1 : (2 : ℚ) ^ e ≤ q) (h2 : q < (2 : ℚ) ^ (e + 1))
    (hm : q * 2 ^ ((52 : Int) - e) = (m : ℚ)) :
    flRound q = q := by
  have hq' : q = (m : ℚ) * 2 ^ (e - (52 : Int)) := by
    have h0 : ((52 : Int) - e) + (e - 52) = 0 := by omega
    calc q = q * ((2 : ℚ) ^ ((52 : Int) - e) * (2 : ℚ) ^ (e - (52 : Int))) := by
          rw [← zpow_add₀ (two_ne_zero) (((52 : Int) - e)) ((e - (52 : Int))), h0,
            zpow_zero, mul_one]
      _ = (q * (2 : ℚ) ^ ((52 : Int) - e)) * (2 : ℚ) ^ (e - (52 : Int)) := by ring
      _ = (m : ℚ) * 2 ^ (e - (52 : Int)) := by rw [hm]
  apply flRound_eval e hq h1 h2
  rw [hm, roundNearestEven_intCast, ← hq']

theorem flRound_one : flRound 1 = 1 :=
  flRound_exact 0 4503599627370496 (by norm_num) (by norm_num) (by norm_num)
    (by norm_num)

theorem flRound_two : flRound 2 = 2 :=
  flRound_exact 1 4503599627370496 (by norm_num) (by norm_num) (by norm_num)
    (by norm_num)

theorem pyFloatOfInt_two : pyFloatOfInt 2 = 2 := by
  unfold pyFloatOfInt
  rw [show (((2 : Int) : ℚ)) = (2 : ℚ) by norm_num]
  exact flRound_two

theorem pyFloatOfInt_four : pyFloatOfInt 4 = 4 := by
  unfold pyFloatOfInt
  rw [show (((4 : Int) : ℚ)) = (4 : ℚ) by norm_num]
  exact flRound_exact 2 4503599627370496 (by norm_num) (by norm_num) (by norm_num)
    (by norm_num)

theorem pyFloatOfInt_ten : pyFloatOfInt 10 = 10 := by
  unfold pyFloatOfInt
  rw [show (((10 : Int) : ℚ)) = (10 : ℚ) by norm_num]
  exact flRound_exact 3 5629499534213120 (by norm_num) (by norm_num) (by norm_num)
    (by norm_num)

theorem pyFloatMul_half_two : pyFloatMul (1 / 2 : ℚ) 2 = 1 := by
  unfold pyFloatMul
  rw [show ((1 / 2 : ℚ) * 2) = (1 : ℚ) by norm_num]
  exact flRound_one

theorem pyFloatMul_half_four : pyFloatMul (1 / 2 : ℚ) 4 = 2 := by
  unfold pyFloatMul
  rw [show ((1 / 2 : ℚ) * 4) = (2 : ℚ) by norm_num]
  exact flRound_two

theorem pyFloatMul_double07_ten :
    pyFloatMul (3152519739159347 / 4503599627370496 : ℚ) 10 = 7 := by
  unfold pyFloatMul
  apply flRound_eval 2
  · norm_num
  · norm_num
  · norm_num
  · have hr : roundNearestEven ((3152519739159347 / 4503599627370496 : ℚ) * 10 *
        2 ^ ((52 : Int) - 2)) = 7881299347898368 := by
      norm_num [roundNearestEven]
    rw [hr]
    norm_num

theorem bind_ok_inv {α β : Type} {e : Except PyErr α} {g : α → Except PyErr β}
    {b : β} (h : (e >>= g) = .ok b) : ∃ a, e = .ok a ∧ g a = .ok b := by
  cases e with
  | error ee => rw [error_bind] at h; cases h
  | ok a => exact ⟨a, rfl, h⟩

theorem random_split_model_inv {perm : List Nat} {nt nv : Int}
    {t v : List Nat}
    (h : random_split_model perm nt nv = .ok (t, v)) :
    0 ≤ nt ∧ 0 ≤ nv ∧ nt + nv = (perm.length : Int) ∧
    t = perm.take nt.toNat ∧ v = perm.drop nt.toNat := by
  unfold random_split_model at h
  split at h
  · cases h
  · next hcond =>
    push_neg at hcond
    rw [Except.ok.injEq, Prod.mk.injEq] at h
    exact ⟨by omega, by omega, by omega, h.1.symm, h.2.symm⟩

theorem prepare_data_inv (m : XRayDataModuleState) (f : H5File)
    (perm : List Nat) (pd : PreparedData)
    (hok : prepare_data m f perm = .ok pd) :
    pd.train_val_selection =
      ⟨m.train_samples, m.height_range, m.train_day_range, m.dimension⟩ ∧
    random_split_model perm
      (pd.train_val_selection.num_points -
        pyInt (pyFloatMul m.validation_split
          (pyFloatOfInt pd.train_val_selection.num_points)))
      (pyInt (pyFloatMul m.validation_split
        (pyFloatOfInt pd.train_val_selection.num_points))) =
      .ok (pd.train_indices, pd.val_indices) ∧
    pd.strict_test_selection.sample_list =
      ((get_all_group_paths f).filter
        (fun s => decide (¬ s ∈ m.train_samples))).dedup := by
  simp only [prepare_data] at hok
  obtain ⟨tv, hsplit, hok⟩ := bind_ok_inv hok
  obtain ⟨first, hfirst, hok⟩ := bind_ok_inv hok
  obtain ⟨smp, hsmp, hok⟩ := bind_ok_inv hok
  obtain ⟨td, htd, hok⟩ := bind_ok_inv hok
  cases hok
  refine ⟨rfl, ?_, rfl⟩
  simpa using hsplit

/-- C9 counterexample: the val count is not always the exact
floor(validation_split * num_points).  With validation_split the binary64
float written 0.7 (exact value 3152519739159347/2^52) and a train+val
selection of num_points = 10 (one sample, two heights, five days,
dimension 2), line 255 multiplies the two floats: the exact product
6.99999999999999955... is rounded to exactly 7.0 (the scaled significand
lands halfway and ties-to-even rounds up), so int() yields 7 and the val
view receives 7 of the 10 indices — but the exact floor of
validation_split * num_points is 6.  (In CPython: int(0.7 * 10) == 7.) -/
theorem val_count_float_rounding_counterexample :
    (prepare_data ⟨"p", ["a"], (0, 2), (0, 5),
        3152519739159347 / 4503599627370496, 1, 0, 0, 2, none, none⟩
      ⟨["a", "b"], fun s => if s = "a" ∨ s = "b" then
        some ⟨⟨[5], fun _ => 0⟩, ⟨[5], fun _ => 0⟩⟩ else none⟩
      [0, 1, 2, 3, 4, 5, 6, 7, 8, 9]).map
        (fun pd => (pd.train_indices.length, pd.val_indices.length)) =
      .ok (3, 7) ∧
    ⌊(3152519739159347 / 4503599627370496 : ℚ) *
        (((⟨["a"], (0, 2), (0, 5), 2⟩ : DataSelection).num_points : Int) : ℚ)⌋ = 6 := by
  constructor
  · have hpy : pyInt (pyFloatMul (3152519739159347 / 4503599627370496 : ℚ)
        (pyFloatOfInt (⟨["a"], (0, 2), (0, 5), 2⟩ : DataSelection).num_points)) = 7 := by
      have hn : (⟨["a"], (0, 2), (0, 5), 2⟩ : DataSelection).num_points = 10 := by
        decide
      rw [hn, pyFloatOfInt_ten, pyFloatMul_double07_ten]
      norm_num [pyInt]
    simp only [prepare_data]
    rw [hpy]
    decide
  · have hn : (⟨["a"], (0, 2), (0, 5), 2⟩ : DataSelection).num_points = 10 := by
      decide
    rw [hn]
    norm_num

/-- C9 (amended): for every configuration on which `prepare_data` succeeds,
the random train/val partition assigns exactly
int(fl(validation_split * num_points)) indices to the val view — the IEEE
binary64 product, rounded to nearest-even and then truncated — and the
remaining num_points - int(fl(validation_split * num_points)) to the train
view, where num_points is the size of the train+val Selection.  This count
equals floor(validation_split * num_points) for most inputs but not all:
float rounding can carry the product across an integer boundary (see the
counterexample, where the code yields 7 against an exact floor of 6).  The
seeded permutation drawn by `random_split` is the `perm` parameter. -/
theorem train_val_split_counts (m : XRayDataModuleState) (f : H5File)
    (perm : List Nat) (pd : PreparedData)
    (hok : prepare_data m f perm = .ok pd) :
    (pd.val_indices.length : Int) =
      pyInt (pyFloatMul m.validation_split
        (pyFloatOfInt pd.train_val_selection.num_points)) ∧
    (pd.train_indices.length : Int) =
      pd.train_val_selection.num_points -
        pyInt (pyFloatMul m.validation_split
          (pyFloatOfInt pd.train_val_selection.num_points)) := by
  obtain ⟨htv, hsplit, hstrict⟩ := prepare_data_inv m f perm pd hok
  obtain ⟨hnt0, hnv0, hsum, htake, hdrop⟩ := random_split_model_inv hsplit
  have h1 : pd.train_indices.length =
      (pd.train_val_selection.num_points -
        pyInt (pyFloatMul m.validation_split
          (pyFloatOfInt pd.train_val_selection.num_points))).toNat := by
    rw [htake, List.length_take]
    omega
  have h2 : pd.val_indices.length = perm.length -
      (pd.train_val_selection.num_points -
        pyInt (pyFloatMul m.validation_split
          (pyFloatOfInt pd.train_val_selection.num_points))).toNat := by
    rw [hdrop, List.length_drop]
  constructor
  · rw [h2]
    omega
  · rw [h1]
    omega

/-- Witness for C9 (amended): a concrete succeeding configuration (one train
sample, 4 points, validation fraction 1/2 — exactly representable, so the
float product is exact) where val gets exactly
int(fl(1/2 * 4)) = 2 indices and train the remaining 2. -/
theorem train_val_split_counts_witness :
    ((([2, 3] : List Nat).length : Int) =
      pyInt (pyFloatMul (1 / 2 : ℚ)
        (pyFloatOfInt (⟨["a"], (0, 2), (0, 2), 2⟩ : DataSelection).num_points)) ∧
    (([0, 1] : List Nat).length : Int) =
      (⟨["a"], (0, 2), (0, 2), 2⟩ : DataSelection).num_points -
        pyInt (pyFloatMul (1 / 2 : ℚ)
          (pyFloatOfInt (⟨["a"], (0, 2), (0, 2), 2⟩ : DataSelection).num_points))) :=
  train_val_split_counts
    ⟨"p", ["a"], (0, 2), (0, 2), 1 / 2, 4, 0, 0, 2, none, none⟩
    ⟨["a", "b"], fun s => if s = "a" ∨ s = "b" then
      some ⟨⟨[4], fun _ => 0⟩, ⟨[4], fun _ => 0⟩⟩ else none⟩
    [0, 1, 2, 3]
    ⟨⟨["a"], (0, 2), (0, 2), 2⟩, [0, 1], [2, 3],
      ⟨["b"], (0, 2), (2, 4), 2⟩, ⟨["b"], (0, 2), (0, 2), 2⟩,
      ⟨["a"], (0, 2), (2, 4), 2⟩⟩
    (by
      have hpy : pyInt (pyFloatMul (1 / 2 : ℚ)
          (pyFloatOfInt (⟨["a"], (0, 2), (0, 2), 2⟩ : DataSelection).num_points)) = 2 := by
        have hn : (⟨["a"], (0, 2), (0, 2), 2⟩ : DataSelection).num_points = 4 := by
          decide
        rw [hn, pyFloatOfInt_four, pyFloatMul_half_four]
        norm_num [pyInt]
      simp only [prepare_data]
      rw [hpy]
      decide)

theorem resolveIndex_name_mem {sel : DataSelection} {i : Int}
    {t : String × Int × Int} (h : resolveIndex sel i = .ok t) :
    t.1 ∈ sel.sample_list := by
  unfold resolveIndex at h
  obtain ⟨sdm, h1, h⟩ := bind_ok_inv h
  obtain ⟨name, h2, h⟩ := bind_ok_inv h
  obtain ⟨dhm, h3, h⟩ := bind_ok_inv h
  cases h
  exact pyListGet_mem h2

theorem pointPair_name_mem {sel : DataSelection} {i : Int} {s : String}
    {d : Int} (h : pointPair sel i = .ok (s, d)) : s ∈ sel.sample_list := by
  unfold pointPair at h
  obtain ⟨t, ht, hp⟩ := bind_ok_inv h
  cases hp
  exact resolveIndex_name_mem ht

/-- C8 counterexample: in the configuration with one train sample "a", two
heights and one train day, the train+val index space is {0, 1} and both
indices carry the same (sample, day) pair ("a", 0) (they differ only in
height).  Whatever permutation the seeded shuffle draws ([0,1] or [1,0]),
one index goes to train and the other to val, so the (sample, day) pair
("a", 0) is reachable from both views: the (sample, day)-pair sets of train
and val are not disjoint. -/
theorem train_val_pairs_overlap :
    (prepare_data ⟨"p", ["a"], (0, 2), (0, 1), 1 / 2, 1, 0, 0, 2, none, none⟩
      ⟨["a", "b"], fun s => if s = "a" ∨ s = "b" then
        some ⟨⟨[4], fun _ => 0⟩, ⟨[4], fun _ => 0⟩⟩ else none⟩
      [0, 1]).map (fun pd => (pd.train_val_selection, pd.train_indices, pd.val_indices)) =
      .ok (⟨["a"], (0, 2), (0, 1), 2⟩, [0], [1]) ∧
    (prepare_data ⟨"p", ["a"], (0, 2), (0, 1), 1 / 2, 1, 0, 0, 2, none, none⟩
      ⟨["a", "b"], fun s => if s = "a" ∨ s = "b" then
        some ⟨⟨[4], fun _ => 0⟩, ⟨[4], fun _ => 0⟩⟩ else none⟩
      [1, 0]).map (fun pd => (pd.train_indices, pd.val_indices)) =
      .ok ([1], [0]) ∧
    pointPair ⟨["a"], (0, 2), (0, 1), 2⟩ 0 = .ok ("a", 0) ∧
    pointPair ⟨["a"], (0, 2), (0, 1), 2⟩ 1 = .ok ("a", 0) := by
  have hpy : pyInt (pyFloatMul (1 / 2 : ℚ)
      (pyFloatOfInt (⟨["a"], (0, 2), (0, 1), 2⟩ : DataSelection).num_points)) = 1 := by
    have hn : (⟨["a"], (0, 2), (0, 1), 2⟩ : DataSelection).num_points = 2 := by
      decide
    rw [hn, pyFloatOfInt_two, pyFloatMul_half_two]
    norm_num [pyInt]
  refine ⟨?_, ?_, by decide, by decide⟩
  · simp only [prepare_data]
    rw [hpy]
    decide
  · simp only [prepare_data]
    rw [hpy]
    decide

/-- C8 (amended): for every configuration on which `prepare_data` succeeds,
(i) when the permutation drawn by the seeded shuffle has no duplicates, no
index is in both the train and the val view (the random split partitions the
train+val index space), and (ii) no (sample, day) pair is reachable from
both the train+val selection and the strict test selection (their sample
sets are disjoint by construction).  Train and val may however share a
(sample, day) pair when dimension = 2 and num_heights ≥ 2 (see the
counterexample): there the disjointness holds at the level of point indices,
not of (sample, day) pairs. -/
theorem split_disjointness (m : XRayDataModuleState) (f : H5File)
    (perm : List Nat) (pd : PreparedData)
    (hok : prepare_data m f perm = .ok pd) :
    (perm.Nodup → ∀ i, i ∈ pd.train_indices → i ∈ pd.val_indices → False) ∧
    (∀ s d i₁ i₂, pointPair pd.train_val_selection i₁ = .ok (s, d) →
      pointPair pd.strict_test_selection i₂ = .ok (s, d) → False) := by
  obtain ⟨htv, hsplit, hstrict⟩ := prepare_data_inv m f perm pd hok
  obtain ⟨hnt0, hnv0, hsum, htake, hdrop⟩ := random_split_model_inv hsplit
  constructor
  · intro hnd i h1 h2
    rw [htake] at h1
    rw [hdrop] at h2
    exact (List.disjoint_take_drop hnd (le_refl _)) h1 h2
  · intro s d i₁ i₂ hp1 hp2
    have hm1 : s ∈ pd.train_val_selection.sample_list := pointPair_name_mem hp1
    have hm2 : s ∈ pd.strict_test_selection.sample_list := pointPair_name_mem hp2
    rw [htv] at hm1
    rw [hstrict, List.mem_dedup, List.mem_filter] at hm2
    exact (of_decide_eq_true hm2.2) hm1

/-- Witness for C8 (amended), instantiated at the counterexample
configuration with the permutation [0, 1]: the index sets [0] and [1] are
disjoint and no (sample, day) pair is shared between the train+val selection
(samples ["a"]) and the strict test selection (samples ["b"]). -/
theorem split_disjointness_witness :
    (∀ i : Nat, i ∈ ([0] : List Nat) → i ∈ ([1] : List Nat) → False) ∧
    (∀ s d i₁ i₂, pointPair ⟨["a"], (0, 2), (0, 1), 2⟩ i₁ = .ok (s, d) →
      pointPair ⟨["b"], (0, 2), (1, 4), 2⟩ i₂ = .ok (s, d) → False) := by
  have h := split_disjointness
    ⟨"p", ["a"], (0, 2), (0, 1), 1 / 2, 1, 0, 0, 2, none, none⟩
    ⟨["a", "b"], fun s => if s = "a" ∨ s = "b" then
      some ⟨⟨[4], fun _ => 0⟩, ⟨[4], fun _ => 0⟩⟩ else none⟩
    [0, 1]
    ⟨⟨["a"], (0, 2), (0, 1), 2⟩, [0], [1],
      ⟨["b"], (0, 2), (1, 4), 2⟩, ⟨["b"], (0, 2), (0, 1), 2⟩,
      ⟨["a"], (0, 2), (1, 4), 2⟩⟩
    (by
      have hpy : pyInt (pyFloatMul (1 / 2 : ℚ)
          (pyFloatOfInt (⟨["a"], (0, 2), (0, 1), 2⟩ : DataSelection).num_points)) = 1 := by
        have hn : (⟨["a"], (0, 2), (0, 1), 2⟩ : DataSelection).num_points = 2 := by
          decide
        rw [hn, pyFloatOfInt_two, pyFloatMul_half_two]
        norm_num [pyInt]
      simp only [prepare_data]
      rw [hpy]
      decide)
  exact ⟨h.1 (by decide), h.2⟩

theorem getitemRes_eq_body (ds : XRayDatasetState) (f : H5File)
    (files : String → Option H5File) (rand : Nat → Int) (idx : Int)
    (hfile : ds.hdf5_file = some f) :
    getitemRes files ds rand idx = getitemBody f ds rand idx := by
  have hds : ({ ds with hdf5_file := some f } : XRayDatasetState) = ds := by
    cases ds
    cases hfile
    rfl
  unfold getitemRes getitem
  rw [hfile]
  show getitemBody f { ds with hdf5_file := some f } rand idx = _
  rw [hds]

theorem index0_ok {α : Type} {t : Tensor α} {s : Int} {rest : List Int}
    {i : Int} (hsh : t.shape = s :: rest) (h0 : -s ≤ i) (h1 : i < s) :
    ∃ u, t.index0 i = .ok u ∧ Tensor.shape u = rest := by
  obtain ⟨sh, v⟩ := t
  simp only [] at hsh
  subst hsh
  unfold Tensor.index0
  simp only []
  rw [if_pos ⟨h0, h1⟩]
  exact ⟨_, rfl, rfl⟩

theorem patchAndMask_ok (ds : XRayDatasetState) (rand : Nat → Int)
    (dataT labelsT : Tensor Int)
    (hshape : labelsT.shape = dataT.shape)
    (hwfs : wfShape ds dataT.shape = true)
    (hwfb : wfBorder ds = true)
    (hd23 : ds.dimension = 2 ∨ ds.dimension = 3) :
    ∃ v, patchAndMask ds rand dataT labelsT = .ok v := by
  have hd2 : 2 ≤ ds.dimension.toNat := by
    rcases hd23 with h | h <;> rw [h] <;> decide
  cases hps : ds.patch_size with
  | none =>
    refine ⟨(dataT.unsqueeze0, labelsT, Tensor.full dataT.shape true), ?_⟩
    unfold patchAndMask compute_border_mask
    rw [hps]
    rfl
  | some psize =>
    unfold wfShape at hwfs
    rw [hps] at hwfs
    simp only [Bool.and_eq_true, decide_eq_true_eq, List.all_eq_true,
      List.mem_range] at hwfs
    obtain ⟨⟨hlen1, hlen2⟩, hlt⟩ := hwfs
    have hpsne : pyFalsy (some psize) = false := by
      cases psize with
      | nil => simp at hlen1; omega
      | cons a l => rfl
    have hstep : ∀ i ∈ List.range ds.dimension.toNat,
        (do
          let sh ← pyListGet dataT.shape (Int.ofNat i)
          let ps ← pyListGet psize (Int.ofNat i)
          pure (sh - ps) : Except PyErr Int) =
        .ok (dataT.shape.getD i 0 - psize.getD i 0) := by
      intro i hi
      rw [List.mem_range] at hi
      rw [pyListGet_ok 0 (by simp only [Int.ofNat_eq_natCast]; omega)
          (by simp only [Int.ofNat_eq_natCast]; omega),
        pyListGet_ok 0 (by simp only [Int.ofNat_eq_natCast]; omega)
          (by simp only [Int.ofNat_eq_natCast]; omega)]
      rfl
    have hchoose : ∃ l, choose_patch_starts ds.shuffle ds.dimension
        ((List.range ds.dimension.toNat).map
          (fun i => dataT.shape.getD i 0 - psize.getD i 0)) rand = .ok l ∧
        l.length = ds.dimension.toNat := by
      unfold choose_patch_starts
      rcases Bool.eq_false_or_eq_true ds.shuffle with hsh | hsh <;> rw [hsh]
      case inr =>
        rw [if_neg (by decide)]
        unfold patch_starts_centered
        have hc : ∀ i ∈ List.range ds.dimension.toNat,
            (do
              let m ← pyListGet ((List.range ds.dimension.toNat).map
                (fun i => dataT.shape.getD i 0 - psize.getD i 0)) (Int.ofNat i)
              pure (m.fdiv 2) : Except PyErr Int) =
            .ok ((((List.range ds.dimension.toNat).map
              (fun i => dataT.shape.getD i 0 - psize.getD i 0)).getD i 0).fdiv 2) := by
          intro i hi
          rw [List.mem_range] at hi
          rw [pyListGet_ok 0 (by simp only [Int.ofNat_eq_natCast]; omega)
            (by simp only [Int.ofNat_eq_natCast, List.length_map,
              List.length_range]; omega)]
          rfl
        rw [mapM_ok hc]
        exact ⟨_, rfl, by simp⟩
      case inl =>
        rw [if_pos rfl]
        unfold patch_starts_shuffled
        have hc : ∀ i ∈ List.range ds.dimension.toNat,
            (do
              let m ← pyListGet ((List.range ds.dimension.toNat).map
                (fun i => dataT.shape.getD i 0 - psize.getD i 0)) (Int.ofNat i)
              np_randint 0 m (rand i) : Except PyErr Int) =
            .ok (0 + rand i % (dataT.shape.getD i 0 - psize.getD i 0 - 0)) := by
          intro i hi
          rw [List.mem_range] at hi
          rw [pyListGet_ok 0 (by simp only [Int.ofNat_eq_natCast]; omega)
            (by simp only [Int.ofNat_eq_natCast, List.length_map,
              List.length_range]; omega)]
          rw [ok_bind]
          have htn : (Int.ofNat i).toNat = i := rfl
          rw [htn, getD_map_range (0 : Int) hi]
          unfold np_randint
          rw [if_neg (by have := hlt i hi; omega)]
        rw [mapM_ok hc]
        exact ⟨_, rfl, by simp⟩
    obtain ⟨l, hcs, hlen⟩ := hchoose
    have hsllen : ((l.zip psize).map (fun p => (p.1, p.1 + p.2))).length ≤
        dataT.shape.length := by
      simp only [List.length_map, List.length_zip, hlen]
      omega
    have hnps1 : ∃ u, dataT.npSlice
        ((l.zip psize).map (fun p => (p.1, p.1 + p.2))) = .ok u := by
      unfold Tensor.npSlice
      rw [if_pos hsllen]
      exact ⟨_, rfl⟩
    have hnps2 : ∃ u, labelsT.npSlice
        ((l.zip psize).map (fun p => (p.1, p.1 + p.2))) = .ok u := by
      unfold Tensor.npSlice
      rw [if_pos (by rw [hshape]; exact hsllen)]
      exact ⟨_, rfl⟩
    obtain ⟨u₁, hnps1⟩ := hnps1
    obtain ⟨u₂, hnps2⟩ := hnps2
    have hmask : ∃ mk, compute_border_mask ds dataT.shape l = .ok mk := by
      cases hpb : ds.patch_border with
      | none =>
        refine ⟨Tensor.full psize true, ?_⟩
        unfold compute_border_mask
        rw [hps, hpb]
        simp only [hpsne, Bool.false_eq_true, if_false]
        rfl
      | some pb =>
        unfold wfBorder at hwfb
        rw [hpb] at hwfb
        simp only [decide_eq_true_eq] at hwfb
        have hpbne : pyFalsy (some pb) = false := by
          cases pb with
          | nil => simp at hwfb; omega
          | cons a t => rfl
        have hloop : ∀ i ∈ List.range ds.dimension.toNat,
            (do
              let b ← pyListGet pb (Int.ofNat i)
              let pst ← pyListGet l (Int.ofNat i)
              let ish ← pyListGet dataT.shape (Int.ofNat i)
              let psz ← pyListGet psize (Int.ofNat i)
              let start := if b > pst then b - pst else b
              let e := if b > ish - (pst + psz) then b - (ish - (pst + psz)) else b
              pure (start, psz - e) : Except PyErr (Int × Int)) =
            .ok (maskStart (pb.getD i 0) (l.getD i 0),
              psize.getD i 0 - maskEndMargin (pb.getD i 0)
                (dataT.shape.getD i 0 - (l.getD i 0 + psize.getD i 0))) := by
          intro i hi
          rw [List.mem_range] at hi
          rw [pyListGet_ok 0 (by simp only [Int.ofNat_eq_natCast]; omega)
              (by simp only [Int.ofNat_eq_natCast]; omega),
            pyListGet_ok 0 (by simp only [Int.ofNat_eq_natCast]; omega)
              (by simp only [Int.ofNat_eq_natCast]; omega),
            pyListGet_ok 0 (by simp only [Int.ofNat_eq_natCast]; omega)
              (by simp only [Int.ofNat_eq_natCast]; omega),
            pyListGet_ok 0 (by simp only [Int.ofNat_eq_natCast]; omega)
              (by simp only [Int.ofNat_eq_natCast]; omega)]
          rfl
        refine ⟨(Tensor.full psize false).setSlice
          ((List.range ds.dimension.toNat).map (fun i =>
            (maskStart (pb.getD i 0) (l.getD i 0),
             psize.getD i 0 - maskEndMargin (pb.getD i 0)
               (dataT.shape.getD i 0 - (l.getD i 0 + psize.getD i 0))))) true, ?_⟩
        unfold compute_border_mask
        rw [hps, hpb]
        simp only [hpsne, hpbne, Bool.false_eq_true, if_false, Option.getD_some]
        rw [mapM_ok hloop]
        rfl
    obtain ⟨mk, hmk⟩ := hmask
    refine ⟨(u₁.unsqueeze0, u₂, mk), ?_⟩
    unfold patchAndMask
    rw [hps]
    simp only [mapM_ok hstep, ok_bind]
    simp only [hcs, ok_bind]
    simp only [hnps1, ok_bind]
    simp only [hnps2, ok_bind]
    simp only [hmk, ok_bind]
    rfl

theorem pyPure_bind {α β : Type} (x : α) (f : α → Except PyErr β) :
    (pure x >>= f : Except PyErr β) = f x := rfl

theorem pyListGet_ok_mem {l : List α} {i : Int} (h0 : -(l.length : Int) ≤ i)
    (h1 : i < l.length) : ∃ x, pyListGet l i = .ok x ∧ x ∈ l := by
  obtain ⟨x, hx⟩ := pyListGet_total h0 h1
  exact ⟨x, hx, pyListGet_mem hx⟩

/-- C4 (amended): on a well-formed dataset whose backing file is open,
`__getitem__(idx)` returns a `(data, label, mask)` triple exactly when `idx`
lies in `[-num_points, num_points)` — Python's negative-index semantics in
the `sample_list` lookup make `idx` in `[-num_points, 0)` succeed (returning
the point at `idx + num_points`) instead of raising — and raises for every
`idx` outside that range. -/
theorem getitem_ok_iff (ds : XRayDatasetState) (f : H5File)
    (files : String → Option H5File) (rand : Nat → Int) (idx : Int)
    (hfile : ds.hdf5_file = some f) (hwf : wf ds f = true) :
    exOk (getitemRes files ds rand idx) = true ↔
      (-ds.selection.num_points ≤ idx ∧ idx < ds.selection.num_points) := by
  rw [getitemRes_eq_body ds f files rand idx hfile]
  simp only [wf, Bool.and_eq_true, decide_eq_true_eq, List.all_eq_true] at hwf
  obtain ⟨⟨⟨hsel, hdimeq⟩, hbord⟩, hall⟩ := hwf
  simp only [wfSel, Bool.and_eq_true, Bool.or_eq_true, decide_eq_true_eq] at hsel
  obtain ⟨⟨⟨⟨hdim23, hh0⟩, hhlt⟩, hd0⟩, hdle⟩ := hsel
  have hnp : ds.selection.num_points =
      (ds.selection.sample_list.length : Int) * ds.selection.points_per_sample := rfl
  have hnh_eq : ds.selection.num_heights =
      ds.selection.height_range.2 - ds.selection.height_range.1 := rfl
  have hnd_eq : ds.selection.num_days =
      ds.selection.day_range.2 - ds.selection.day_range.1 := rfl
  have hnh : 0 < ds.selection.num_heights := by
    simp only [DataSelection.num_heights]
    omega
  have hnd0 : 0 ≤ ds.selection.num_days := by
    simp only [DataSelection.num_days]
    omega
  have hpps0 : 0 ≤ ds.selection.points_per_sample := by
    unfold DataSelection.points_per_sample
    split
    · exact mul_nonneg (by omega) hnd0
    · exact hnd0
  rcases eq_or_lt_of_le hpps0 with hz | hpps
  · have hdm : pyDivMod idx ds.selection.points_per_sample = .error .zeroDivision := by
      rw [← hz]
      rfl
    unfold getitemBody
    rw [hdm, error_bind]
    simp only [exOk, Bool.false_eq_true, false_iff]
    intro hcon
    rw [← hz, mul_zero] at hnp
    omega
  · by_cases hin : -ds.selection.num_points ≤ idx ∧ idx < ds.selection.num_points
    · -- in range: the call succeeds
      obtain ⟨hA, hB⟩ := hin
      have hq0 : -(ds.selection.sample_list.length : Int) ≤
          idx / ds.selection.points_per_sample := by
        rw [Int.le_ediv_iff_mul_le hpps]
        have := neg_mul (ds.selection.sample_list.length : Int)
          ds.selection.points_per_sample
        omega
      have hqn : idx / ds.selection.points_per_sample <
          (ds.selection.sample_list.length : Int) := by
        rw [Int.ediv_lt_iff_lt_mul hpps]
        omega
      obtain ⟨sname, hget, hsmem⟩ := pyListGet_ok_mem hq0 hqn
      have hwfsmp := hall sname hsmem
      cases hfs : f.samples sname with
      | none =>
        rw [hfs] at hwfsmp
        cases hwfsmp
      | some smp =>
      rw [hfs] at hwfsmp
      unfold wfSample at hwfsmp
      simp only [Bool.and_eq_true, decide_eq_true_eq] at hwfsmp
      obtain ⟨⟨⟨hlab, h1len⟩, hdext⟩, hiftail⟩ := hwfsmp
      have hh5 : h5Get f sname = .ok smp := by
        unfold h5Get
        rw [hfs]
      have hr0 : 0 ≤ idx % ds.selection.points_per_sample :=
        Int.emod_nonneg idx (by omega)
      have hr1 : idx % ds.selection.points_per_sample <
          ds.selection.points_per_sample := Int.emod_lt_of_pos idx hpps
      have hday0 : 0 ≤ (idx % ds.selection.points_per_sample) /
          ds.selection.num_heights := Int.ediv_nonneg hr0 (by omega)
      have hheight0 : 0 ≤ (idx % ds.selection.points_per_sample) %
          ds.selection.num_heights :=
        Int.emod_nonneg _ (by omega)
      have hheight1 : (idx % ds.selection.points_per_sample) %
          ds.selection.num_heights < ds.selection.num_heights :=
        Int.emod_lt_of_pos _ hnh
      -- the day offset is always < num_days
      have hdayn : (idx % ds.selection.points_per_sample) /
          ds.selection.num_heights < ds.selection.num_days := by
        rcases hdim23 with hdim2 | hdim3
        · have hpe : ds.selection.points_per_sample =
              ds.selection.num_heights * ds.selection.num_days := by
            unfold DataSelection.points_per_sample
            rw [if_pos hdim2]
          rw [Int.ediv_lt_iff_lt_mul hnh]
          have := mul_comm ds.selection.num_days ds.selection.num_heights
          omega
        · have hpe : ds.selection.points_per_sample = ds.selection.num_days := by
            unfold DataSelection.points_per_sample
            rw [if_neg (by omega)]
          have := Int.ediv_le_self ds.selection.num_heights hr0
          omega
      unfold getitemBody
      rw [pyDivMod_pos hpps, ok_bind]
      simp only []
      rw [hget, ok_bind, pyDivMod_pos hnh, ok_bind]
      simp only []
      rw [hh5, ok_bind]
      rcases hdim23 with hdim2 | hdim3
      · -- dimension 2
        have h2tail : 2 ≤ smp.data.shape.length ∧
            ds.selection.height_range.2 ≤ smp.data.shape.getD 1 0 ∧
            wfShape ds (smp.data.shape.drop 2) = true := by
          rw [hdimeq, hdim2, if_pos rfl] at hiftail
          simp only [Bool.and_eq_true, decide_eq_true_eq] at hiftail
          exact ⟨hiftail.1.1, hiftail.1.2, hiftail.2⟩
        obtain ⟨h2len, hhext, hwfs2⟩ := h2tail
        rcases hshd : smp.data.shape with _ | ⟨s0, rest01⟩
        · rw [hshd] at h1len
          simp at h1len
        rcases hrest : rest01 with _ | ⟨s1, rest⟩
        · rw [hshd, hrest] at h2len
          simp at h2len
        rw [hrest] at hshd
        have hgd0 : smp.data.shape.getD 0 0 = s0 := by rw [hshd]; rfl
        have hgd1 : smp.data.shape.getD 1 0 = s1 := by rw [hshd]; rfl
        have hs0nn : (0:Int) ≤ s0 := by
          rw [hgd0] at hdext
          omega
        have hs1nn : (0:Int) ≤ s1 := by
          rw [hgd1] at hhext
          omega
        obtain ⟨d0, hd0eq, hd0sh⟩ := index0_ok (t := smp.data)
          (i := (idx % ds.selection.points_per_sample) /
            ds.selection.num_heights + ds.selection.day_range.1)
          hshd (by omega) (by rw [hgd0] at hdext; omega)
        obtain ⟨l0, hl0eq, hl0sh⟩ := index0_ok (t := smp.labels)
          (i := (idx % ds.selection.points_per_sample) /
            ds.selection.num_heights + ds.selection.day_range.1)
          (hlab.trans hshd) (by omega) (by rw [hgd0] at hdext; omega)
        obtain ⟨d1, hd1eq, hd1sh⟩ := index0_ok (t := d0)
          (i := (idx % ds.selection.points_per_sample) %
            ds.selection.num_heights + ds.selection.height_range.1)
          hd0sh (by omega) (by rw [hgd1] at hhext; omega)
        obtain ⟨l1, hl1eq, hl1sh⟩ := index0_ok (t := l0)
          (i := (idx % ds.selection.points_per_sample) %
            ds.selection.num_heights + ds.selection.height_range.1)
          hl0sh (by omega) (by rw [hgd1] at hhext; omega)
        obtain ⟨v, hpm⟩ := patchAndMask_ok ds rand d1 l1
          (by rw [hd1sh, hl1sh])
          (by
            rw [hd1sh]
            have : smp.data.shape.drop 2 = rest := by rw [hshd]; rfl
            rw [← this]
            exact hwfs2)
          hbord
          (by rw [hdimeq, hdim2]; exact Or.inl rfl)
        rw [hd0eq, ok_bind, hl0eq, ok_bind, hdimeq, hdim2, if_pos rfl]
        rw [hd1eq, ok_bind, hl1eq, ok_bind, pyPure_bind]
        simp only []
        rw [hpm]
        simp only [exOk]
        exact iff_of_true trivial ⟨hA, hB⟩
      · -- dimension 3
        have h3tail : wfShape ds (smp.data.shape.drop 1) = true := by
          rw [hdimeq, hdim3, if_neg (by omega)] at hiftail
          exact hiftail
        rcases hshd : smp.data.shape with _ | ⟨s0, rest⟩
        · rw [hshd] at h1len
          simp at h1len
        have hgd0 : smp.data.shape.getD 0 0 = s0 := by rw [hshd]; rfl
        have hs0nn : (0:Int) ≤ s0 := by
          rw [hgd0] at hdext
          omega
        obtain ⟨d0, hd0eq, hd0sh⟩ := index0_ok (t := smp.data)
          (i := (idx % ds.selection.points_per_sample) /
            ds.selection.num_heights + ds.selection.day_range.1)
          hshd (by omega) (by rw [hgd0] at hdext; omega)
        obtain ⟨l0, hl0eq, hl0sh⟩ := index0_ok (t := smp.labels)
          (i := (idx % ds.selection.points_per_sample) /
            ds.selection.num_heights + ds.selection.day_range.1)
          (hlab.trans hshd) (by omega) (by rw [hgd0] at hdext; omega)
        obtain ⟨v, hpm⟩ := patchAndMask_ok ds rand d0 l0
          (by rw [hd0sh, hl0sh])
          (by
            rw [hd0sh]
            have : smp.data.shape.drop 1 = rest := by rw [hshd]; rfl
            rw [← this]
            exact h3tail)
          hbord
          (by rw [hdimeq, hdim3]; exact Or.inr rfl)
        rw [hd0eq, ok_bind, hl0eq, ok_bind, hdimeq, hdim3,
          if_neg (by decide), pyPure_bind]
        simp only []
        rw [hpm]
        simp only [exOk]
        exact iff_of_true trivial ⟨hA, hB⟩
    · -- out of range: the sample_list lookup raises
      have hor : idx < -ds.selection.num_points ∨
          ds.selection.num_points ≤ idx := by omega
      have hq : idx / ds.selection.points_per_sample <
            -(ds.selection.sample_list.length : Int) ∨
          (ds.selection.sample_list.length : Int) ≤
            idx / ds.selection.points_per_sample := by
        rcases hor with h | h
        · left
          rw [Int.ediv_lt_iff_lt_mul hpps]
          have := neg_mul (ds.selection.sample_list.length : Int)
            ds.selection.points_per_sample
          omega
        · right
          rw [Int.le_ediv_iff_mul_le hpps]
          omega
      unfold getitemBody
      rw [pyDivMod_pos hpps, ok_bind]
      simp only []
      rw [pyListGet_err hq, error_bind]
      simp only [exOk, Bool.false_eq_true, false_iff]
      exact hin

/-- C4 counterexample: on a well-formed dimension-2 dataset with
`num_points = 8`, the call `__getitem__(-1)` does not raise: Python's
negative indexing into `sample_list` wraps around, and the call returns a
`(data, label, mask)` triple — contradicting the claim that every negative
index raises an out-of-bounds error. -/
theorem getitem_negative_index_returns :
    (⟨["a", "b"], (1, 3), (2, 4), 2⟩ : DataSelection).num_points = 8 ∧
    exOk (getitemRes
      (fun s => if s = "p" then
        some ⟨["a", "b"], fun s' => if s' = "a" ∨ s' = "b" then
          some ⟨⟨[4, 3, 20, 20], fun _ => 7⟩, ⟨[4, 3, 20, 20], fun _ => 1⟩⟩
        else none⟩
      else none)
      ⟨"train", "p", none, ⟨["a", "b"], (1, 3), (2, 4), 2⟩,
        some [10, 10], some [3, 3], true, 2⟩
      (fun _ => 0) (-1)) = true :=
  ⟨by decide, by decide⟩

/-- Witness for C4 (amended): a concrete well-formed dataset (two samples,
two days, two heights, dimension 2, num_points = 8) on which the
success-iff-in-range equivalence holds at idx = 5. -/
theorem getitem_ok_iff_witness :
    wf ⟨"train", "p",
        some ⟨["a", "b"], fun s' => if s' = "a" ∨ s' = "b" then
          some ⟨⟨[4, 3, 20, 20], fun _ => 7⟩, ⟨[4, 3, 20, 20], fun _ => 1⟩⟩
        else none⟩,
        ⟨["a", "b"], (1, 3), (2, 4), 2⟩,
        some [10, 10], some [3, 3], true, 2⟩
      ⟨["a", "b"], fun s' => if s' = "a" ∨ s' = "b" then
        some ⟨⟨[4, 3, 20, 20], fun _ => 7⟩, ⟨[4, 3, 20, 20], fun _ => 1⟩⟩
      else none⟩ = true ∧
    (exOk (getitemRes
      (fun s => if s = "p" then
        some ⟨["a", "b"], fun s' => if s' = "a" ∨ s' = "b" then
          some ⟨⟨[4, 3, 20, 20], fun _ => 7⟩, ⟨[4, 3, 20, 20], fun _ => 1⟩⟩
        else none⟩
      else none)
      ⟨"train", "p",
        some ⟨["a", "b"], fun s' => if s' = "a" ∨ s' = "b" then
          some ⟨⟨[4, 3, 20, 20], fun _ => 7⟩, ⟨[4, 3, 20, 20], fun _ => 1⟩⟩
        else none⟩,
        ⟨["a", "b"], (1, 3), (2, 4), 2⟩,
        some [10, 10], some [3, 3], true, 2⟩
      (fun _ => 0) 5) = true ↔
      (-(⟨"train", "p",
        some ⟨["a", "b"], fun s' => if s' = "a" ∨ s' = "b" then
          some ⟨⟨[4, 3, 20, 20], fun _ => 7⟩, ⟨[4, 3, 20, 20], fun _ => 1⟩⟩
        else none⟩,
        ⟨["a", "b"], (1, 3), (2, 4), 2⟩,
        some [10, 10], some [3, 3], true, 2⟩ : XRayDatasetState).selection.num_points ≤ 5 ∧
        (5 : Int) < (⟨"train", "p",
        some ⟨["a", "b"], fun s' => if s' = "a" ∨ s' = "b" then
          some ⟨⟨[4, 3, 20, 20], fun _ => 7⟩, ⟨[4, 3, 20, 20], fun _ => 1⟩⟩
        else none⟩,
        ⟨["a", "b"], (1, 3), (2, 4), 2⟩,
        some [10, 10], some [3, 3], true, 2⟩ : XRayDatasetState).selection.num_points)) :=
  ⟨by decide, getitem_ok_iff _ _ _ _ 5 rfl (by decide)⟩
